import Mathlib

/-!
# Verification of the wireproxy-awg core against its specification

This development gives a shallow embedding, in Lean 4, of the pure core of
the `wireproxy-awg` repository (configuration parser, UAPI serializer,
metrics redaction, credential validation, SOCKS5 authentication selection,
and the DNS record-selection logic), and proves or refutes the claims of
the specification against it.

Modelling conventions:
* Go strings are byte/character sequences; they are modelled as `List Char`
  (abbreviated `Str`).  String literals are injected with `gs`.
* Machine integers are modelled as `Int`/`Nat`; where Go's `strconv`
  enforces the 64-bit range, the explicit bounds appear in the parsers.
* Fallible Go code (`(T, error)` returns) is modelled with
  `Except CfgError`.  `CfgError` has one constructor per distinct error
  site of the source; the constructor doc comments quote the source text.
* Effects are parameters: the process environment is a function
  `Str → Option Str`, the system resolver and the secondary config-file
  loader are function parameters, and network I/O in the DNS resolver is
  modelled by passing in the answer sections the queries obtained.
* External libraries (go-ini, netip, heredoc, crypto/subtle, miekg/dns)
  are out of scope per the specification; they are modelled by their
  documented behaviour as far as the repository exercises them.
-/

/-- Go strings, modelled as lists of characters. -/
abbrev Str := List Char

/-- Inject a Lean string literal as a Go string. -/
def gs (s : String) : Str := s.data

/-- The newline character, Go `"\n"`. -/
def nlChar : Char := '\n'

/-- Models `strings.ToLower` (ASCII range, which is all the repository uses
for section and key names). -/
def lowerStr (s : Str) : Str := s.map Char.toLower

/-- Models `strings.HasPrefix`. -/
def goHasPrefix (pre s : Str) : Bool := List.isPrefixOf pre s

/-- Models `strings.Split(s, sep)` for a one-character separator (the
repository only splits on `","` and `"\n"`).  Returns the (possibly empty)
pieces between occurrences of the separator; always non-empty. -/
def splitOnChar (sep : Char) : Str → List Str
  | [] => [[]]
  | c :: cs =>
      let rest := splitOnChar sep cs
      if c = sep then [] :: rest
      else (c :: rest.headI) :: rest.tail

/-- Models `strings.SplitN(s, sep, 2)` for a one-character separator:
`[s]` when the separator does not occur, otherwise the part before the
first occurrence and the (unsplit) part after it. -/
def splitN2 (sep : Char) : Str → List Str
  | [] => [[]]
  | c :: cs =>
      if c = sep then [[], cs]
      else
        match splitN2 sep cs with
        | [x] => [c :: x]
        | x :: rest => (c :: x) :: rest
        | [] => [[c]]

/-- Concatenate lines, terminating each with a newline. -/
def joinLines (ls : List Str) : Str := (ls.map (· ++ [nlChar])).flatten

/-- Models `strings.TrimSpace` (the repository only feeds it ASCII). -/
def trimStr (s : Str) : Str :=
  ((s.dropWhile Char.isWhitespace).reverse.dropWhile Char.isWhitespace).reverse

/-- Models `strings.Replace(s, old, new, 1)`: replace the first occurrence
of `old` (non-empty) by `new`. -/
def replaceFirst (old new : Str) : Str → Str
  | [] => []
  | c :: cs =>
      if goHasPrefix old (c :: cs) then new ++ (c :: cs).drop old.length
      else c :: replaceFirst old new cs

/-- The decimal digit character for `n % 10`. -/
def digitChar (n : Nat) : Char :=
  match n with
  | 0 => '0' | 1 => '1' | 2 => '2' | 3 => '3' | 4 => '4'
  | 5 => '5' | 6 => '6' | 7 => '7' | 8 => '8' | _ => '9'

/-- Decimal digits of a natural number, fuel-based (fuel `n+1` suffices). -/
def natReprAux : Nat → Nat → Str → Str
  | 0, _, acc => acc
  | fuel + 1, n, acc =>
      let d := digitChar (n % 10)
      if n < 10 then d :: acc else natReprAux fuel (n / 10) (d :: acc)

/-- Decimal rendering of a natural number (Go `fmt.Sprintf("%d", n)`). -/
def natRepr (n : Nat) : Str := natReprAux (n + 1) n []

/-- Decimal rendering of an integer (Go `fmt.Sprintf("%d", i)`). -/
def intRepr (i : Int) : Str :=
  if i < 0 then '-' :: natRepr i.natAbs else natRepr i.toNat

section StrLemmas

/-- The head of a non-empty list is a member. -/
theorem headI_mem {α : Type} [Inhabited α] (l : List α) (h : l ≠ []) :
    l.headI ∈ l := by
  cases l with
  | nil => exact absurd rfl h
  | cons x xs => simp [List.headI]

/-- `splitOnChar` never returns the empty list. -/
theorem splitOnChar_ne_nil (sep : Char) (s : Str) : splitOnChar sep s ≠ [] := by
  cases s with
  | nil => simp [splitOnChar]
  | cons c cs =>
      simp only [splitOnChar]
      split <;> simp

/-- Splitting a string starting with the separator. -/
theorem splitOnChar_sep_cons (sep : Char) (s : Str) :
    splitOnChar sep (sep :: s) = [] :: splitOnChar sep s := by
  simp [splitOnChar]

/-- Splitting a string starting with a non-separator. -/
theorem splitOnChar_cons_ne (sep c : Char) (h : c ≠ sep) (s : Str) :
    splitOnChar sep (c :: s) =
      (c :: (splitOnChar sep s).headI) :: (splitOnChar sep s).tail := by
  simp [splitOnChar, h]

/-- A separator-free line followed by a separator splits off as one piece. -/
theorem splitOnChar_append_sep (sep : Char) (l s : Str) (h : sep ∉ l) :
    splitOnChar sep (l ++ sep :: s) = l :: splitOnChar sep s := by
  induction l with
  | nil => simp [splitOnChar]
  | cons c cs ih =>
      have hc : c ≠ sep := fun hcs => h (hcs ▸ List.mem_cons_self c cs)
      have hcs : sep ∉ cs := fun hm => h (List.mem_cons_of_mem _ hm)
      rw [List.cons_append, splitOnChar_cons_ne sep c hc, ih hcs]
      simp

/-- Splitting the newline-terminated concatenation of newline-free lines
recovers the lines (plus the empty piece after the final newline). -/
theorem splitOnChar_joinLines (sep : Char) (ls : List Str)
    (h : ∀ l ∈ ls, sep ∉ l) :
    splitOnChar sep ((ls.map (· ++ [sep])).flatten) = ls ++ [[]] := by
  induction ls with
  | nil => simp [splitOnChar]
  | cons l rest ih =>
      have hl : sep ∉ l := h l (List.mem_cons_self l rest)
      have hrest : ∀ x ∈ rest, sep ∉ x := fun x hx => h x (List.mem_cons_of_mem _ hx)
      simp only [List.map_cons, List.flatten_cons, List.append_assoc,
        List.singleton_append]
      rw [splitOnChar_append_sep sep l _ hl, ih hrest]
      simp

/-- Every piece returned by `splitOnChar` is free of the separator. -/
theorem splitOnChar_mem_not_mem (sep : Char) (s : Str) :
    ∀ l ∈ splitOnChar sep s, sep ∉ l := by
  induction s with
  | nil =>
      intro l hl
      simp [splitOnChar] at hl
      simp [hl]
  | cons c cs ih =>
      intro l hl
      by_cases hc : c = sep
      · subst hc
        rw [splitOnChar_sep_cons] at hl
        rcases List.mem_cons.mp hl with h | h
        · simp [h]
        · exact ih l h
      · rw [splitOnChar_cons_ne sep c hc] at hl
        rcases List.mem_cons.mp hl with h | h
        · subst h
          intro hmem
          rcases List.mem_cons.mp hmem with h' | h'
          · exact hc h'.symm
          · have := ih _ (headI_mem _ (splitOnChar_ne_nil sep cs))
            exact this h'
        · exact ih l (List.mem_of_mem_tail h)

/-- `splitN2` on a string without the separator. -/
theorem splitN2_not_mem (sep : Char) (s : Str) (h : sep ∉ s) :
    splitN2 sep s = [s] := by
  induction s with
  | nil => simp [splitN2]
  | cons c cs ih =>
      have hc : c ≠ sep := fun hcs => h (hcs ▸ List.mem_cons_self c cs)
      have hcs : sep ∉ cs := fun hm => h (List.mem_cons_of_mem _ hm)
      simp [splitN2, hc, ih hcs]

/-- `splitN2` splits at the first separator: for a separator-free key `k`,
`k=v` splits into `[k, v]`. -/
theorem splitN2_append (sep : Char) (k v : Str) (h : sep ∉ k) :
    splitN2 sep (k ++ sep :: v) = [k, v] := by
  induction k with
  | nil => simp [splitN2]
  | cons c cs ih =>
      have hc : c ≠ sep := fun hcs => h (hcs ▸ List.mem_cons_self c cs)
      have hcs : sep ∉ cs := fun hm => h (List.mem_cons_of_mem _ hm)
      simp [splitN2, hc, ih hcs]

/-- Digit characters are never the newline character. -/
theorem digitChar_ne_nl (n : Nat) : digitChar n ≠ nlChar := by
  unfold digitChar
  split <;> decide

/-- Every character of `natReprAux` output is a decimal digit or comes
from the accumulator. -/
theorem natReprAux_mem (fuel n : Nat) (acc : Str) :
    ∀ c ∈ natReprAux fuel n acc, (∃ m, c = digitChar m) ∨ c ∈ acc := by
  induction fuel generalizing n acc with
  | zero => intro c hc; exact Or.inr hc
  | succ fuel ih =>
      intro c hc
      simp only [natReprAux] at hc
      split at hc
      · rcases List.mem_cons.mp hc with h | h
        · exact Or.inl ⟨n % 10, h⟩
        · exact Or.inr h
      · rcases ih (n / 10) (digitChar (n % 10) :: acc) c hc with h | h
        · exact Or.inl h
        · rcases List.mem_cons.mp h with h' | h'
          · exact Or.inl ⟨n % 10, h'⟩
          · exact Or.inr h'

/-- Decimal renderings of naturals contain no newline. -/
theorem nl_not_mem_natRepr (n : Nat) : nlChar ∉ natRepr n := by
  intro h
  rcases natReprAux_mem (n + 1) n [] nlChar h with ⟨m, hm⟩ | h2
  · exact digitChar_ne_nl m hm.symm
  · simp at h2

/-- Decimal renderings of integers contain no newline. -/
theorem nl_not_mem_intRepr (i : Int) : nlChar ∉ intRepr i := by
  unfold intRepr
  split
  · intro h
    rcases List.mem_cons.mp h with h' | h'
    · exact absurd h' (by decide)
    · exact nl_not_mem_natRepr _ h'
  · exact nl_not_mem_natRepr _

end StrLemmas

/-! ## Credential validation (src/routine.go, `CredentialValidator`)

`crypto/subtle.ConstantTimeCompare` is external; it is modelled by its
documented behaviour: `0` when the lengths differ, otherwise `1` exactly
when all bytes agree, computed (as in its source) by or-ing the xors of
corresponding bytes.  Go byte strings are modelled as `Str`. -/

/-- Stores the authentication data of a socks5/http proxy
(src/routine.go lines 33-36). -/
structure CredentialValidator where
  username : Str
  password : Str

/-- Models `subtle.ConstantTimeCompare(x, y)`. -/
def constantTimeCompare (x y : Str) : Nat :=
  if x.length ≠ y.length then 0
  else if (x.zip y).foldl (fun v p => v ||| (p.1.toNat ^^^ p.2.toNat)) 0 = 0
  then 1 else 0

/-- Models `CredentialValidator.Valid` (src/routine.go lines 40-44):
`u & p == 1` on the two constant-time comparison results. -/
def CredentialValidator.Valid (c : CredentialValidator) (username password : Str) : Bool :=
  constantTimeCompare c.username username &&& constantTimeCompare c.password password = 1

theorem nat_or_eq_zero_iff (a b : Nat) : a ||| b = 0 ↔ a = 0 ∧ b = 0 := by
  constructor
  · intro h
    constructor <;> refine Nat.eq_of_testBit_eq fun i => ?_ <;>
      have hb := congrArg (fun x => Nat.testBit x i) h <;>
      simp [Nat.testBit_or] at hb ⊢ <;> tauto
  · rintro ⟨rfl, rfl⟩; rfl

theorem foldl_or_eq_zero_iff (l : List Nat) (v : Nat) :
    l.foldl (fun a b => a ||| b) v = 0 ↔ v = 0 ∧ ∀ x ∈ l, x = 0 := by
  induction l generalizing v with
  | nil => simp
  | cons x xs ih =>
      simp only [List.foldl_cons, ih, nat_or_eq_zero_iff, List.mem_cons]
      constructor
      · rintro ⟨⟨hv, hx⟩, hall⟩
        exact ⟨hv, fun y hy => hy.elim (fun h => h ▸ hx) (hall y)⟩
      · rintro ⟨hv, hall⟩
        exact ⟨⟨hv, hall x (Or.inl rfl)⟩, fun y hy => hall y (Or.inr hy)⟩

theorem eq_iff_length_and_zip (x y : Str) :
    x = y ↔ x.length = y.length ∧ ∀ p ∈ x.zip y, p.1 = p.2 := by
  induction x generalizing y with
  | nil =>
      cases y <;> simp
  | cons a xs ih =>
      cases y with
      | nil => simp
      | cons b ys =>
          simp only [List.zip_cons_cons, List.mem_cons, List.length_cons]
          constructor
          · intro h
            injection h with h1 h2
            subst h1; subst h2
            exact ⟨rfl, fun p hp => hp.elim (fun h => by simp [h])
              (fun h => ((ih _).mp rfl).2 p h)⟩
          · rintro ⟨hlen, hall⟩
            have hab : a = b := hall (a, b) (Or.inl rfl)
            have : xs = ys := (ih ys).mpr
              ⟨by omega, fun p hp => hall p (Or.inr hp)⟩
            rw [hab, this]

/-- The or-of-xors accumulator is zero exactly when all zipped pairs agree. -/
theorem foldl_or_xor_eq_zero_iff (x y : Str) :
    (x.zip y).foldl (fun v p => v ||| (p.1.toNat ^^^ p.2.toNat)) 0 = 0 ↔
      ∀ p ∈ x.zip y, p.1 = p.2 := by
  rw [show ((x.zip y).foldl (fun v p => v ||| (p.1.toNat ^^^ p.2.toNat)) 0)
      = ((x.zip y).map (fun p => p.1.toNat ^^^ p.2.toNat)).foldl
          (fun a b => a ||| b) 0 from (List.foldl_map _ _ _ _).symm,
    foldl_or_eq_zero_iff]
  constructor
  · intro h p hp
    have := h.2 (p.1.toNat ^^^ p.2.toNat) (List.mem_map_of_mem _ hp)
    exact Char.eq_of_val_eq (UInt32.ext (Nat.xor_eq_zero.mp this))
  · intro h
    refine ⟨rfl, fun z hz => ?_⟩
    rcases List.mem_map.mp hz with ⟨p, hp, rfl⟩
    rw [h p hp]
    exact Nat.xor_self _

/-- `ConstantTimeCompare` returns `1` exactly on equal inputs. -/
theorem constantTimeCompare_eq_one_iff (x y : Str) :
    constantTimeCompare x y = 1 ↔ x = y := by
  unfold constantTimeCompare
  by_cases hlen : x.length = y.length
  · simp only [hlen, ne_eq, not_true_eq_false, if_false]
    by_cases hfold :
        (x.zip y).foldl (fun v p => v ||| (p.1.toNat ^^^ p.2.toNat)) 0 = 0
    · simp only [hfold, if_true, true_iff]
      exact (eq_iff_length_and_zip x y).mpr
        ⟨hlen, (foldl_or_xor_eq_zero_iff x y).mp hfold⟩
    · simp only [hfold, if_false]
      constructor
      · intro h; exact absurd h (by norm_num)
      · intro h
        exact absurd ((foldl_or_xor_eq_zero_iff x y).mpr
          ((eq_iff_length_and_zip x y).mp h).2) hfold
  · simp only [hlen, ne_eq, not_false_eq_true, if_true]
    constructor
    · intro h; exact absurd h (by norm_num)
    · intro h; exact absurd (congrArg List.length h) hlen

theorem constantTimeCompare_zero_or_one (x y : Str) :
    constantTimeCompare x y = 0 ∨ constantTimeCompare x y = 1 := by
  unfold constantTimeCompare
  split
  · exact Or.inl rfl
  · split
    · exact Or.inr rfl
    · exact Or.inl rfl

theorem nat_and_one_iff (a b : Nat) (ha : a = 0 ∨ a = 1) (hb : b = 0 ∨ b = 1) :
    a &&& b = 1 ↔ a = 1 ∧ b = 1 := by
  rcases ha with rfl | rfl <;> rcases hb with rfl | rfl <;> decide

/-- C10: `CredentialValidator.Valid(username, password)` returns true iff the
supplied username equals the stored username and the supplied password equals
the stored password; in particular both-empty stored credentials accept the
empty pair. -/
theorem claim_C10_credential_valid :
    (∀ (c : CredentialValidator) (u p : Str),
        c.Valid u p = true ↔ u = c.username ∧ p = c.password)
    ∧ CredentialValidator.Valid ⟨[], []⟩ [] [] = true := by
  constructor
  · intro c u p
    simp only [CredentialValidator.Valid, decide_eq_true_eq]
    rw [nat_and_one_iff _ _ (constantTimeCompare_zero_or_one _ _)
        (constantTimeCompare_zero_or_one _ _),
      constantTimeCompare_eq_one_iff, constantTimeCompare_eq_one_iff]
    constructor
    · rintro ⟨h1, h2⟩; exact ⟨h1.symm, h2.symm⟩
    · rintro ⟨h1, h2⟩; exact ⟨h1.symm, h2.symm⟩
  · decide

/-! ## SOCKS5 routine configuration (src/routine.go, `Socks5Config.SpawnRoutine`) -/

/-- src/unnamed/part_001 lines 85-89. -/
structure Socks5Config where
  BindAddress : Str
  Username : Str
  Password : Str
deriving DecidableEq

/-- The authentication mode handed to the external SOCKS5 library:
either `NoAuthAuthenticator` or a `UserPassAuthenticator` with the static
credential map `{username: password}`. -/
inductive AuthChoice where
  | noAuth : AuthChoice
  | userPass (username password : Str) : AuthChoice
deriving DecidableEq

/-- Models the authentication-method selection of
`Socks5Config.SpawnRoutine` (src/routine.go lines 200-209): user/pass
authentication iff `config.Username` is non-empty, no-auth otherwise.
The `config.Password` field does not participate in the choice. -/
def socks5AuthMethod (config : Socks5Config) : AuthChoice :=
  if config.Username ≠ [] then
    AuthChoice.userPass config.Username config.Password
  else
    AuthChoice.noAuth

/-- C4 counterexample: with an empty `Username` but non-empty `Password`,
the spawned SOCKS5 server uses no-authentication, contradicting the claim
that username/password authentication is used whenever not both credentials
are empty. -/
theorem claim_C4_counterexample :
    socks5AuthMethod ⟨gs "127.0.0.1:1080", gs "", gs "secret"⟩ = AuthChoice.noAuth
    ∧ gs "secret" ≠ gs "" := by
  constructor
  · rfl
  · decide

/-- C4 (amended): the spawned SOCKS5 server uses no-authentication iff
`Username` is empty, and username/password authentication (with the
configured username and password) iff `Username` is non-empty; `Password`
alone never triggers authentication. -/
theorem claim_C4_auth_selection (cfg : Socks5Config) :
    (socks5AuthMethod cfg = AuthChoice.noAuth ↔ cfg.Username = [])
    ∧ (socks5AuthMethod cfg = AuthChoice.userPass cfg.Username cfg.Password ↔
        cfg.Username ≠ []) := by
  unfold socks5AuthMethod
  by_cases h : cfg.Username = [] <;> simp [h]

/-! ## Number parsing and rendering helpers (strconv, go-ini key accessors) -/

/-- The value of a decimal digit character, if it is one. -/
def digitVal (c : Char) : Option Nat :=
  if 48 ≤ c.toNat ∧ c.toNat ≤ 57 then some (c.toNat - 48) else none

/-- Value of a non-empty all-decimal-digit string. -/
def digitsVal : Str → Option Nat
  | [] => none
  | l => l.foldlM (fun acc c => (digitVal c).map (fun d => acc * 10 + d)) 0

/-- Models `strconv.Atoi` (equivalently `ParseInt(s, 10, 64)`) as used by
go-ini's `Key.Int`: optional sign, decimal digits, 64-bit range. -/
def goAtoi (s : Str) : Option Int :=
  match s with
  | '+' :: rest => (digitsVal rest).bind
      (fun n => if n ≤ 9223372036854775807 then some (Int.ofNat n) else none)
  | '-' :: rest => (digitsVal rest).bind
      (fun n => if n ≤ 9223372036854775808 then some (-(Int.ofNat n)) else none)
  | _ => (digitsVal s).bind
      (fun n => if n ≤ 9223372036854775807 then some (Int.ofNat n) else none)

/-- Models `strconv.ParseUint(s, 10, 64)` as used by go-ini's `Key.Uint64`:
decimal digits only (no sign), 64-bit range. -/
def goParseUint64 (s : Str) : Option Nat :=
  (digitsVal s).bind (fun n => if n ≤ 18446744073709551615 then some n else none)

/-- Models go-ini's boolean value parsing (`Key.Bool`), by its documented
truthy/falsy value lists. -/
def goParseBool (s : Str) : Option Bool :=
  if s ∈ [gs "1", gs "t", gs "T", gs "true", gs "TRUE", gs "True",
          gs "YES", gs "yes", gs "Yes", gs "y", gs "ON", gs "on", gs "On"]
  then some true
  else if s ∈ [gs "0", gs "f", gs "F", gs "false", gs "FALSE", gs "False",
               gs "NO", gs "no", gs "No", gs "n", gs "OFF", gs "off", gs "Off"]
  then some false
  else none

/-- Lowercase hexadecimal digit characters (Go `encoding/hex`). -/
def hexDigitChar (n : Nat) : Char :=
  match n with
  | 0 => '0' | 1 => '1' | 2 => '2' | 3 => '3' | 4 => '4'
  | 5 => '5' | 6 => '6' | 7 => '7' | 8 => '8' | 9 => '9'
  | 10 => 'a' | 11 => 'b' | 12 => 'c' | 13 => 'd' | 14 => 'e' | _ => 'f'

/-- Models `hex.EncodeToString` on a byte list. -/
def hexEncode (bs : List Nat) : Str :=
  bs.flatMap (fun b => [hexDigitChar (b / 16 % 16), hexDigitChar (b % 16)])

/-- Base64 (standard alphabet) character values. -/
def base64CharVal (c : Char) : Option Nat :=
  if 65 ≤ c.toNat ∧ c.toNat ≤ 90 then some (c.toNat - 65)
  else if 97 ≤ c.toNat ∧ c.toNat ≤ 122 then some (c.toNat - 97 + 26)
  else if 48 ≤ c.toNat ∧ c.toNat ≤ 57 then some (c.toNat - 48 + 52)
  else if c = '+' then some 62
  else if c = '/' then some 63
  else none

/-- Models `base64.StdEncoding.DecodeString`: standard alphabet, mandatory
padding, groups of four characters; `=` only at the end of the final group.
(The decoder's tolerance for embedded newlines is not exercised by the
repository's inputs and is not modelled.) -/
def base64DecodeGroups : Str → Option (List Nat)
  | [] => some []
  | c1 :: c2 :: c3 :: c4 :: rest =>
      match base64CharVal c1, base64CharVal c2 with
      | some v1, some v2 =>
          if c3 = '=' then
            if c4 = '=' ∧ rest = [] then some [v1 * 4 + v2 / 16] else none
          else
            match base64CharVal c3 with
            | some v3 =>
                if c4 = '=' then
                  if rest = [] then
                    some [v1 * 4 + v2 / 16, v2 % 16 * 16 + v3 / 4]
                  else none
                else
                  match base64CharVal c4 with
                  | some v4 =>
                      (base64DecodeGroups rest).map
                        (fun bs => (v1 * 4 + v2 / 16) ::
                          (v2 % 16 * 16 + v3 / 4) :: (v3 % 4 * 64 + v4) :: bs)
                  | none => none
            | none => none
      | _, _ => none
  | _ => none

/-! ## Addresses (external `net/netip`)

`netip.ParseAddr` / `netip.ParsePrefix` are Go standard-library functions,
out of scope per the specification.  The model implements the IPv4
dotted-quad grammar (which is all the concrete inputs of this development
use) and carries an IPv6 constructor so the datatypes match; other textual
address forms are rejected by the model.  No theorem below depends on which
strings beyond that grammar the real parser accepts. -/

/-- Models `netip.Addr`. -/
inductive IpAddr where
  | v4 (a b c d : Nat)
  | v6 (groups : List Nat)
deriving DecidableEq

/-- Models `netip.Prefix`. -/
structure IpPrefix where
  addr : IpAddr
  bits : Nat
deriving DecidableEq

/-- One dotted-quad octet: one to three digits, no leading zero, ≤ 255. -/
def parseIPv4Octet (s : Str) : Option Nat :=
  match digitsVal s with
  | none => none
  | some n =>
      if s.length = 0 ∨ s.length > 3 then none
      else if s.length > 1 ∧ s.headI = '0' then none
      else if n > 255 then none
      else some n

/-- Models `netip.ParseAddr` restricted to the IPv4 grammar (see above). -/
def netipParseAddr (s : Str) : Option IpAddr :=
  match (splitOnChar '.' s).mapM parseIPv4Octet with
  | some [a, b, c, d] => some (.v4 a b c d)
  | _ => none

/-- The index after the last occurrence of `c`, if any
(`strings.LastIndexByte`). -/
def lastIndexOf (c : Char) (s : Str) : Option Nat :=
  (List.range s.length).foldl
    (fun acc i => if s.get? i = some c then some i else acc) none

/-- Models `netip.ParsePrefix` (IPv4 grammar): address, `/`, decimal bit
count without sign or leading zeros, at most the address bit length. -/
def netipParsePrefix (s : Str) : Option IpPrefix :=
  match lastIndexOf '/' s with
  | none => none
  | some i =>
      match netipParseAddr (s.take i), digitsVal (s.drop (i + 1)) with
      | some addr, some bits =>
          let bitStr := s.drop (i + 1)
          if bitStr.length > 1 ∧ bitStr.headI = '0' then none
          else if bits ≤ 32 then some ⟨addr, bits⟩ else none
      | _, _ => none

/-- Models `netip.Addr.String()`.  (For IPv6 the model renders the raw hex
groups; the real renderer's zero-compression is never evaluated by the
theorems below, which treat the rendering as an opaque function.) -/
def addrStr : IpAddr → Str
  | .v4 a b c d =>
      natRepr a ++ '.' :: natRepr b ++ '.' :: natRepr c ++ '.' :: natRepr d
  | .v6 groups =>
      List.intercalate ([':'] : Str)
        (groups.map (fun g => hexEncode [g / 256 % 256, g % 256]))

/-- Models `netip.Prefix.String()`. -/
def prefixStr (p : IpPrefix) : Str := addrStr p.addr ++ '/' :: natRepr p.bits

/-! ## INI document model (external go-ini, loaded with `Insensitive`,
`AllowShadows`, `AllowNonUniqueSections`)

A loaded document is a list of named sections with ordered key/value
entries.  With `Insensitive`, go-ini compares section and key names
case-insensitively; `AllowShadows` makes a repeated key keep its first
value for `Key(...)`/`GetKey(...)` lookups; `AllowNonUniqueSections` keeps
repeated sections as distinct list entries.  go-ini's `section.Key(name)`
never returns nil (it auto-creates an empty key), so the nil-key error
branches of the repository's helpers are unreachable and the model reads a
missing key as the empty value where the source uses `Key(...)`, and as
`none` where the source uses `GetKey(...)`. -/

/-- One INI section. -/
structure IniSection where
  name : Str
  entries : List (Str × Str)
deriving DecidableEq

/-- A loaded INI document. -/
abbrev IniFile := List IniSection

/-- Models `cfg.SectionsByName(name)` (case-insensitive). -/
def sectionsByName (f : IniFile) (n : Str) : List IniSection :=
  f.filter (fun s => lowerStr s.name == lowerStr n)

/-- Models `section.GetKey(name)` (case-insensitive, first value). -/
def getKey (s : IniSection) (k : Str) : Option Str :=
  (s.entries.find? (fun e => lowerStr e.1 == lowerStr k)).map (·.2)

/-- Models `section.Key(name).String()`: empty for a missing key. -/
def keyString (s : IniSection) (k : Str) : Str := (getKey s k).getD []

/-- The process environment (`os.LookupEnv`), as an explicit parameter. -/
abbrev Env := Str → Option Str

/-! ## Configuration data model (src/unnamed/part_001 lines 19-100) -/

/-- src/unnamed/part_001 lines 27-46 (`ASecConfigType`); Go zero values. -/
structure ASecConfigType where
  junkPacketCount : Int := 0
  junkPacketMinSize : Int := 0
  junkPacketMaxSize : Int := 0
  initPacketJunkSize : Int := 0
  responsePacketJunkSize : Int := 0
  initPacketMagicHeader : Nat := 0
  responsePacketMagicHeader : Nat := 0
  underloadPacketMagicHeader : Nat := 0
  transportPacketMagicHeader : Nat := 0
  i1 : Option Str := none
  i2 : Option Str := none
  i3 : Option Str := none
  i4 : Option Str := none
  i5 : Option Str := none
  j1 : Option Str := none
  j2 : Option Str := none
  j3 : Option Str := none
  itime : Option Int := none
deriving DecidableEq

/-- src/unnamed/part_001 lines 19-25 (`PeerConfig`). -/
structure PeerConfig where
  PublicKey : Str := []
  PreSharedKey : Str := []
  Endpoint : Option Str := none
  KeepAlive : Int := 0
  AllowedIPs : List IpPrefix := []
deriving DecidableEq

/-- src/unnamed/part_001 lines 49-61 (`DeviceConfig`). -/
structure DeviceConfig where
  SecretKey : Str := []
  Endpoint : List IpAddr := []
  Peers : List PeerConfig := []
  DNS : List IpAddr := []
  MTU : Int := 0
  ListenPort : Option Int := none
  CheckAlive : List IpAddr := []
  DomainBlockingEnabled : Bool := false
  BlockedDomains : List Str := []
  CheckAliveInterval : Int := 0
  ASecConfig : Option ASecConfigType := none
deriving DecidableEq

/-- src/unnamed/part_001 lines 91-95 (`HTTPConfig`). -/
structure HTTPConfig where
  BindAddress : Str
  Username : Str
  Password : Str
deriving DecidableEq

/-- src/unnamed/part_001 lines 71-74; the `*net.TCPAddr` bind address is
kept as its textual form. -/
structure TCPClientTunnelConfig where
  BindAddress : Str
  Target : Str
deriving DecidableEq

/-- src/unnamed/part_001 lines 80-83. -/
structure TCPServerTunnelConfig where
  ListenPort : Int
  Target : Str
deriving DecidableEq

/-- src/unnamed/part_001 lines 76-78. -/
structure STDIOTunnelConfig where
  Target : Str
deriving DecidableEq

/-- The `RoutineSpawner` interface as a tagged variant: the dynamic type of
the interface value is the tag.  The repository declares all five config
types; its `Parse` only ever constructs the first two. -/
inductive RoutineSpawner where
  | socks5 (c : Socks5Config)
  | http (c : HTTPConfig)
  | tcpClientTunnel (c : TCPClientTunnelConfig)
  | tcpServerTunnel (c : TCPServerTunnelConfig)
  | stdioTunnel (c : STDIOTunnelConfig)
deriving DecidableEq

/-- src/unnamed/part_001 lines 97-100 (`Configuration`). -/
structure Configuration where
  Device : DeviceConfig
  Routines : List RoutineSpawner
deriving DecidableEq

/-- Parse/validation failures, one constructor per distinct error site of
src/unnamed/part_001; the constructor comments quote the source text. -/
inductive CfgError where
  /-- "`key` references unset environment variable `value`" -/
  | envUnset (key value : Str)
  /-- a `strconv` integer-parse failure propagated from `Key.Int()` -/
  | intParse (value : Str)
  /-- a `strconv` unsigned-parse failure propagated from `Key.Uint64()` -/
  | uintParse (value : Str)
  /-- a parse failure propagated from `Key.Bool()` -/
  | boolParse (value : Str)
  /-- "port should be >= 0 and < 65536" (`parsePort`, unused by `Parse`) -/
  | portRange
  /-- "invalid base64 string: `value`" -/
  | base64Invalid (value : Str)
  /-- "key should be 32 bytes: `value`" -/
  | keyLength (value : Str)
  /-- a `netip.ParseAddr` failure -/
  | addrParse (value : Str)
  /-- a `netip.ParsePrefix` failure -/
  | prefixParse (value : Str)
  /-- "value of the Jc field must be within the range of 0 to 200" -/
  | jcRange
  /-- "value of the Jmin field must be within the range of 0 to 1280" -/
  | jminRange
  /-- "value of the Jmax field must be within the range of 0 to 1280" -/
  | jmaxRange
  /-- "value of the S1 field must be within the range of 0 to 1280" -/
  | s1Range
  /-- "value of the S2 field must be within the range of 0 to 1280" -/
  | s2Range
  /-- "value of the H1 field must be within the range of 1 to 4294967295" -/
  | h1Range
  /-- same, for H2 -/
  | h2Range
  /-- same, for H3 -/
  | h3Range
  /-- same, for H4 -/
  | h4Range
  /-- "value of the ITime field must be non-negative" -/
  | itimeNegative
  /-- "value of the Jmin field must be less than or equal to Jmax field value" -/
  | jminGtJmax
  /-- "value of the field S1 + message initiation size (148) must not equal
  S2 + message response size (92)" -/
  | s1s2Collision
  /-- "values of the H1-H4 fields must be unique; H`i` conflicts" -/
  | hConflict (i : Nat)
  /-- "H`i` is unset (0) while other headers are set; ..." -/
  | hUnset (i : Nat)
  /-- "one and only one [Interface] is expected" -/
  | oneInterface
  /-- "at least one [Peer] is expected" -/
  | atLeastOnePeer
  /-- "CheckAliveInterval is only valid when CheckAlive is set" -/
  | checkAliveIntervalWithoutCheckAlive
  /-- a `net.ResolveIPAddr`/`SplitHostPort` failure in `resolveIPPAndPort` -/
  | endpointResolve (value : Str)
  /-- an `ini.LoadSources` failure on the `WGConfig` redirection target -/
  | wgLoadFailed (value : Str)
deriving DecidableEq

/-! ## Leaf parsers (src/unnamed/part_001 lines 102-308) -/

/-- Models `parseString` (src/unnamed/part_001 lines 102-120).  go-ini's
`section.Key` never returns nil, so the source's nil-check error is
unreachable and a missing key reads as the empty value; the explicit
`strings.ToLower(keyName)` is subsumed by the case-insensitive lookup. -/
def parseString (env : Env) (sec : IniSection) (keyName : Str) :
    Except CfgError Str :=
  let value := keyString sec keyName
  if goHasPrefix (gs "$") value then
    if goHasPrefix (gs "$$") value then
      .ok (replaceFirst (gs "$$") (gs "$") value)
    else
      match env (value.drop (gs "$").length) with
      | some v => .ok v
      | none => .error (.envUnset keyName value)
  else .ok value

/-- Models `parsePort` (src/unnamed/part_001 lines 122-138).  Defined by the
source but never called by `ParseInterface`, which reads ListenPort with a
bare `Int()`. -/
def parsePort (sec : IniSection) (keyName : Str) : Except CfgError Int :=
  let raw := keyString sec keyName
  match goAtoi raw with
  | none => .error (.intParse raw)
  | some port =>
      if ¬(port ≥ 0 ∧ port < 65536) then .error .portRange
      else .ok port

/-- Models `encodeBase64ToHex` (src/unnamed/part_001 lines 161-170). -/
def encodeBase64ToHex (key : Str) : Except CfgError Str :=
  match base64DecodeGroups key with
  | none => .error (.base64Invalid key)
  | some decoded =>
      if decoded.length ≠ 32 then .error (.keyLength key)
      else .ok (hexEncode decoded)

/-- Models `parseBase64KeyToHex` (src/unnamed/part_001 lines 148-159). -/
def parseBase64KeyToHex (env : Env) (sec : IniSection) (keyName : Str) :
    Except CfgError Str :=
  (parseString env sec keyName).bind encodeBase64ToHex

/-- The element loop of `parseNetIP`: trim, skip empties, `netip.ParseAddr`. -/
def goParseAddrList : List Str → Except CfgError (List IpAddr)
  | [] => .ok []
  | s :: rest =>
      let t := trimStr s
      if t.length = 0 then goParseAddrList rest
      else
        match netipParseAddr t with
        | none => .error (.addrParse t)
        | some ip => (goParseAddrList rest).map (fun ips => ip :: ips)

/-- Models `parseNetIP` (src/unnamed/part_001 lines 172-195).  Its
"should not be empty" recovery branch is dead code (see `parseString`):
a missing key yields the empty value, which splits into one empty element
that the loop skips, so the result is `[]` either way. -/
def parseNetIP (env : Env) (sec : IniSection) (keyName : Str) :
    Except CfgError (List IpAddr) :=
  (parseString env sec keyName).bind
    (fun key => goParseAddrList (splitOnChar ',' key))

/-- Models `parseStrings` (src/unnamed/part_001 lines 197-212): split on
commas and trim, keeping empty elements. -/
def parseStrings (env : Env) (sec : IniSection) (keyName : Str) :
    Except CfgError (List Str) :=
  (parseString env sec keyName).map
    (fun key => (splitOnChar ',' key).map trimStr)

/-- The element loop of `parseCIDRNetIP`: bare address or prefix, keeping
only the address part of a prefix. -/
def goParseCIDRList : List Str → Except CfgError (List IpAddr)
  | [] => .ok []
  | s :: rest =>
      let t := trimStr s
      if t.length = 0 then goParseCIDRList rest
      else
        match netipParseAddr t with
        | some addr => (goParseCIDRList rest).map (fun ips => addr :: ips)
        | none =>
            match netipParsePrefix t with
            | none => .error (.prefixParse t)
            | some p => (goParseCIDRList rest).map (fun ips => p.addr :: ips)

/-- Models `parseCIDRNetIP` (src/unnamed/part_001 lines 235-265). -/
def parseCIDRNetIP (env : Env) (sec : IniSection) (keyName : Str) :
    Except CfgError (List IpAddr) :=
  (parseString env sec keyName).bind
    (fun key => goParseCIDRList (splitOnChar ',' key))

/-- The element loop of `parseAllowedIPs`: trim, skip empties,
`netip.ParsePrefix`. -/
def goParsePrefixList : List Str → Except CfgError (List IpPrefix)
  | [] => .ok []
  | s :: rest =>
      let t := trimStr s
      if t.length = 0 then goParsePrefixList rest
      else
        match netipParsePrefix t with
        | none => .error (.prefixParse t)
        | some p => (goParsePrefixList rest).map (fun ps => p :: ps)

/-- Models `parseAllowedIPs` (src/unnamed/part_001 lines 267-291). -/
def parseAllowedIPs (env : Env) (sec : IniSection) :
    Except CfgError (List IpPrefix) :=
  (parseString env sec (gs "AllowedIPs")).bind
    (fun key => goParsePrefixList (splitOnChar ',' key))

/-! ## ASec (AmneziaWG) parsing and validation
(src/unnamed/part_001 lines 394-617)

`ParseASecConfig` is a sequence of per-key blocks, each of which parses an
optional key, range-checks it, lazily initialises the config
(`initializeASecConfig`, modelled by `Option.getD acc {}`), and sets one
field; the blocks are modelled by the parameterised step functions below,
instantiated per key in source order. -/

/-- One `Int()`-valued ASec block: parse, check `value < lo || value > hi`,
initialise, set. -/
def asecIntField (key : Str) (lo hi : Int) (err : CfgError)
    (set : ASecConfigType → Int → ASecConfigType)
    (sec : IniSection) (acc : Option ASecConfigType) :
    Except CfgError (Option ASecConfigType) :=
  match getKey sec key with
  | none => .ok acc
  | some raw =>
      match goAtoi raw with
      | none => .error (.intParse raw)
      | some value =>
          if value < lo ∨ value > hi then .error err
          else .ok (some (set (acc.getD {}) value))

/-- One `Uint64()`-valued ASec block (`H1`..`H4`): parse, check
`value64 < 1 || value64 > 4294967295`, initialise, set `uint32(value64)`. -/
def asecUintField (key : Str) (err : CfgError)
    (set : ASecConfigType → Nat → ASecConfigType)
    (sec : IniSection) (acc : Option ASecConfigType) :
    Except CfgError (Option ASecConfigType) :=
  match getKey sec key with
  | none => .ok acc
  | some raw =>
      match goParseUint64 raw with
      | none => .error (.uintParse raw)
      | some value =>
          if value < 1 ∨ value > 4294967295 then .error err
          else .ok (some (set (acc.getD {}) (value % 4294967296)))

/-- One string-valued ASec block (`I1`..`I5`, `J1`..`J3`): read verbatim,
initialise, set. -/
def asecStrField (key : Str)
    (set : ASecConfigType → Str → ASecConfigType)
    (sec : IniSection) (acc : Option ASecConfigType) :
    Except CfgError (Option ASecConfigType) :=
  match getKey sec key with
  | none => .ok acc
  | some raw => .ok (some (set (acc.getD {}) raw))

/-- The `ITime` block: parse, reject negatives, initialise, set. -/
def asecStepITime (sec : IniSection) (acc : Option ASecConfigType) :
    Except CfgError (Option ASecConfigType) :=
  match getKey sec (gs "ITime") with
  | none => .ok acc
  | some raw =>
      match goAtoi raw with
      | none => .error (.intParse raw)
      | some value =>
          if value < 0 then .error .itimeNegative
          else .ok (some ({ acc.getD {} with itime := some value }))

/-- The header-uniqueness loop of `ValidateASecConfig`: first 1-based index
of a non-zero header already seen. -/
def findHeaderConflict : List Nat → List Nat → Nat → Option Nat
  | [], _, _ => none
  | h :: rest, seen, i =>
      if h ≠ 0 then
        if h ∈ seen then some i
        else findHeaderConflict rest (h :: seen) (i + 1)
      else findHeaderConflict rest seen (i + 1)

/-- The header-completeness loop of `ValidateASecConfig`: first 1-based
index of a zero header. -/
def findHeaderUnset : List Nat → Nat → Option Nat
  | [], _ => none
  | h :: rest, i => if h = 0 then some i else findHeaderUnset rest (i + 1)

/-- Models `ValidateASecConfig` (src/unnamed/part_001 lines 572-617),
returning the error it would produce, if any. -/
def ValidateASecConfig (config : Option ASecConfigType) : Option CfgError :=
  match config with
  | none => none
  | some config =>
      if config.junkPacketCount > 0 ∧
          config.junkPacketMinSize > config.junkPacketMaxSize then
        some .jminGtJmax
      else if 148 + config.initPacketJunkSize =
          92 + config.responsePacketJunkSize then
        some .s1s2Collision
      else
        let headers := [config.initPacketMagicHeader,
          config.responsePacketMagicHeader,
          config.underloadPacketMagicHeader,
          config.transportPacketMagicHeader]
        match findHeaderConflict headers [] 1 with
        | some i => some (.hConflict i)
        | none =>
            if headers.any (· ≠ 0) then
              match findHeaderUnset headers 1 with
              | some i => some (.hUnset i)
              | none => none
            else none

/-- The blocks of `ParseASecConfig` after the leading `Jc` block, in source
order, ending with the validation call. -/
def asecRest (sec : IniSection) (acc0 : Option ASecConfigType) :
    Except CfgError (Option ASecConfigType) :=
  (asecIntField (gs "Jmin") 0 1280 .jminRange
      (fun a v => { a with junkPacketMinSize := v }) sec acc0).bind (fun acc =>
  (asecIntField (gs "Jmax") 0 1280 .jmaxRange
      (fun a v => { a with junkPacketMaxSize := v }) sec acc).bind (fun acc =>
  (asecIntField (gs "S1") 0 1280 .s1Range
      (fun a v => { a with initPacketJunkSize := v }) sec acc).bind (fun acc =>
  (asecIntField (gs "S2") 0 1280 .s2Range
      (fun a v => { a with responsePacketJunkSize := v }) sec acc).bind (fun acc =>
  (asecUintField (gs "H1") .h1Range
      (fun a v => { a with initPacketMagicHeader := v }) sec acc).bind (fun acc =>
  (asecUintField (gs "H2") .h2Range
      (fun a v => { a with responsePacketMagicHeader := v }) sec acc).bind (fun acc =>
  (asecUintField (gs "H3") .h3Range
      (fun a v => { a with underloadPacketMagicHeader := v }) sec acc).bind (fun acc =>
  (asecUintField (gs "H4") .h4Range
      (fun a v => { a with transportPacketMagicHeader := v }) sec acc).bind (fun acc =>
  (asecStrField (gs "I1") (fun a v => { a with i1 := some v }) sec acc).bind (fun acc =>
  (asecStrField (gs "I2") (fun a v => { a with i2 := some v }) sec acc).bind (fun acc =>
  (asecStrField (gs "I3") (fun a v => { a with i3 := some v }) sec acc).bind (fun acc =>
  (asecStrField (gs "I4") (fun a v => { a with i4 := some v }) sec acc).bind (fun acc =>
  (asecStrField (gs "I5") (fun a v => { a with i5 := some v }) sec acc).bind (fun acc =>
  (asecStrField (gs "J1") (fun a v => { a with j1 := some v }) sec acc).bind (fun acc =>
  (asecStrField (gs "J2") (fun a v => { a with j2 := some v }) sec acc).bind (fun acc =>
  (asecStrField (gs "J3") (fun a v => { a with j3 := some v }) sec acc).bind (fun acc =>
  (asecStepITime sec acc).bind (fun acc =>
    match ValidateASecConfig acc with
    | some e => .error e
    | none => .ok acc)))))))))))))))))

/-- Models `ParseASecConfig` (src/unnamed/part_001 lines 394-570): the `Jc`
block followed by the remaining blocks and validation. -/
def ParseASecConfig (sec : IniSection) : Except CfgError (Option ASecConfigType) :=
  (asecIntField (gs "Jc") 0 200 .jcRange
      (fun a v => { a with junkPacketCount := v }) sec none).bind (asecRest sec)

/-! ## Interface parsing (src/unnamed/part_001 lines 310-392)

The optional-key blocks of `ParseInterface` are modelled as named step
functions in source order; record updates are threaded in source order. -/

/-- The `MTU` block (lines 337-343): optional `Int()` key, no range check. -/
def interfaceStepMTU (sec : IniSection) (device : DeviceConfig) :
    Except CfgError DeviceConfig :=
  match getKey sec (gs "MTU") with
  | none => .ok device
  | some raw =>
      match goAtoi raw with
      | none => .error (.intParse raw)
      | some value => .ok { device with MTU := value }

/-- The `ListenPort` block (lines 345-351): optional `Int()` key, stored
without any range check (`parsePort` is not called here). -/
def interfaceStepListenPort (sec : IniSection) (device : DeviceConfig) :
    Except CfgError DeviceConfig :=
  match getKey sec (gs "ListenPort") with
  | none => .ok device
  | some raw =>
      match goAtoi raw with
      | none => .error (.intParse raw)
      | some value => .ok { device with ListenPort := some value }

/-- The `DomainBlockingEnabled` block (lines 359-365). -/
def interfaceStepDomainBlocking (sec : IniSection) (device : DeviceConfig) :
    Except CfgError DeviceConfig :=
  match getKey sec (gs "DomainBlockingEnabled") with
  | none => .ok device
  | some raw =>
      match goParseBool raw with
      | none => .error (.boolParse raw)
      | some value => .ok { device with DomainBlockingEnabled := value }

/-- The `CheckAliveInterval` block (lines 374-383); the guard reads the
previously assigned `CheckAlive` list. -/
def interfaceStepCheckAliveInterval (sec : IniSection) (device : DeviceConfig) :
    Except CfgError DeviceConfig :=
  match getKey sec (gs "CheckAliveInterval") with
  | none => .ok device
  | some raw =>
      match goAtoi raw with
      | none => .error (.intParse raw)
      | some value =>
          if device.CheckAlive.length = 0 then
            .error .checkAliveIntervalWithoutCheckAlive
          else .ok { device with CheckAliveInterval := value }

/-- The body of `ParseInterface` on the unique `[Interface]` section
(src/unnamed/part_001 lines 316-391). -/
def parseInterfaceSection (env : Env) (sec : IniSection)
    (device : DeviceConfig) : Except CfgError DeviceConfig :=
  (parseCIDRNetIP env sec (gs "Address")).bind (fun address =>
  (parseBase64KeyToHex env sec (gs "PrivateKey")).bind (fun privKey =>
  (parseNetIP env sec (gs "DNS")).bind (fun dns =>
  (interfaceStepMTU sec
      { device with
        Endpoint := address, SecretKey := privKey, DNS := dns }).bind (fun device =>
  (interfaceStepListenPort sec device).bind (fun device =>
  (parseNetIP env sec (gs "CheckAlive")).bind (fun checkAlive =>
  (interfaceStepDomainBlocking sec
      { device with CheckAlive := checkAlive }).bind (fun device =>
  (parseStrings env sec (gs "BlockedDomains")).bind (fun blockedDomains =>
  (interfaceStepCheckAliveInterval sec
      { device with
        BlockedDomains := blockedDomains, CheckAliveInterval := 5 }).bind (fun device =>
  (ParseASecConfig sec).map (fun aSec =>
    { device with ASecConfig := aSec }))))))))))

/-- Models `ParseInterface` (src/unnamed/part_001 lines 311-392). -/
def ParseInterface (env : Env) (cfg : IniFile) (device : DeviceConfig) :
    Except CfgError DeviceConfig :=
  match sectionsByName cfg (gs "Interface") with
  | [sec] => parseInterfaceSection env sec device
  | _ => .error .oneInterface

/-! ## Peer parsing (src/unnamed/part_001 lines 620-671)

`resolveIPPAndPort` performs system DNS resolution; it is passed in as a
function `Str → Option Str` (`none` models a resolution failure). -/

/-- The optional `PreSharedKey` block (lines 638-644); read without
environment interpolation, Base64-decoded to hex. -/
def peerStepPreSharedKey (sec : IniSection) (peer : PeerConfig) :
    Except CfgError PeerConfig :=
  match getKey sec (gs "PreSharedKey") with
  | none => .ok peer
  | some raw =>
      (encodeBase64ToHex raw).map (fun value =>
        { peer with PreSharedKey := value })

/-- The optional `Endpoint` block (lines 646-653): lowercase, then
`resolveIPPAndPort` via the system resolver. -/
def peerStepEndpoint (resolver : Str → Option Str) (sec : IniSection)
    (peer : PeerConfig) : Except CfgError PeerConfig :=
  match getKey sec (gs "Endpoint") with
  | none => .ok peer
  | some raw =>
      match resolver (lowerStr raw) with
      | none => .error (.endpointResolve (lowerStr raw))
      | some resolved => .ok { peer with Endpoint := some resolved }

/-- The optional `PersistentKeepalive` block (lines 655-661). -/
def peerStepKeepAlive (sec : IniSection) (peer : PeerConfig) :
    Except CfgError PeerConfig :=
  match getKey sec (gs "PersistentKeepalive") with
  | none => .ok peer
  | some raw =>
      match goAtoi raw with
      | none => .error (.intParse raw)
      | some value => .ok { peer with KeepAlive := value }

/-- The body of the per-section loop of `ParsePeers` (lines 626-669). -/
def parsePeerSection (env : Env) (resolver : Str → Option Str)
    (sec : IniSection) : Except CfgError PeerConfig :=
  let peer : PeerConfig :=
    { PreSharedKey :=
        gs "0000000000000000000000000000000000000000000000000000000000000000",
      KeepAlive := 0 }
  (parseBase64KeyToHex env sec (gs "PublicKey")).bind (fun decoded =>
  (peerStepPreSharedKey sec { peer with PublicKey := decoded }).bind (fun peer =>
  (peerStepEndpoint resolver sec peer).bind (fun peer =>
  (peerStepKeepAlive sec peer).bind (fun peer =>
  (parseAllowedIPs env sec).map (fun allowed =>
    { peer with AllowedIPs := allowed })))))

/-- The per-element loop of `ParsePeers` and `parseRoutinesConfig`: apply
the section parser to each section in order, propagating failure and
appending the results (the Go `for ... append` loop). -/
def exceptMapList {α β : Type} (f : α → Except CfgError β) :
    List α → Except CfgError (List β)
  | [] => .ok []
  | a :: rest => (f a).bind (fun b => (exceptMapList f rest).map (fun bs => b :: bs))

/-- Models `ParsePeers` (src/unnamed/part_001 lines 620-671). -/
def ParsePeers (env : Env) (resolver : Str → Option Str) (cfg : IniFile) :
    Except CfgError (List PeerConfig) :=
  let sections := sectionsByName cfg (gs "Peer")
  if sections.length < 1 then .error .atLeastOnePeer
  else exceptMapList (parsePeerSection env resolver) sections

/-! ## Routine parsing and `Parse` (src/unnamed/part_001 lines 673-809) -/

/-- Models `parseSocks5Config` (lines 673-689); the `username, _ :=` and
`password, _ :=` assignments discard the error and keep the zero value. -/
def parseSocks5Config (env : Env) (sec : IniSection) :
    Except CfgError RoutineSpawner :=
  (parseString env sec (gs "BindAddress")).map (fun bindAddress =>
    .socks5
      { BindAddress := bindAddress,
        Username := (parseString env sec (gs "Username")).toOption.getD [],
        Password := (parseString env sec (gs "Password")).toOption.getD [] })

/-- Models `parseHTTPConfig` (lines 691-707). -/
def parseHTTPConfig (env : Env) (sec : IniSection) :
    Except CfgError RoutineSpawner :=
  (parseString env sec (gs "BindAddress")).map (fun bindAddress =>
    .http
      { BindAddress := bindAddress,
        Username := (parseString env sec (gs "Username")).toOption.getD [],
        Password := (parseString env sec (gs "Password")).toOption.getD [] })

/-- Models `parseRoutinesConfig` (lines 711-727): apply a section parser to
every section of the given name; with no such sections (go-ini returns an
error that the source swallows) no routines are appended. -/
def parseRoutinesConfig (cfg : IniFile) (sectionName : Str)
    (f : IniSection → Except CfgError RoutineSpawner) :
    Except CfgError (List RoutineSpawner) :=
  exceptMapList f (sectionsByName cfg sectionName)

/-- The `WGConfig` root-key redirection of `Parse` (lines 773-781):
`wgLoad` models `ini.LoadSources` on the redirection value (`none` is a
load failure). -/
def parseWgCfgSource (wgLoad : Str → Option IniFile) (cfg : IniFile)
    (root : IniSection) : Except CfgError IniFile :=
  match getKey root (gs "WGConfig") with
  | none => .ok cfg
  | some path =>
      match wgLoad path with
      | none => .error (.wgLoadFailed path)
      | some f => .ok f

/-- Models `Parse` (src/unnamed/part_001 lines 762-809); the root section
is go-ini's default (unnamed) section. -/
def Parse (env : Env) (resolver : Str → Option Str)
    (wgLoad : Str → Option IniFile) (cfg : IniFile) :
    Except CfgError Configuration :=
  (parseWgCfgSource wgLoad cfg
      ((cfg.find? (fun s => s.name == ([] : Str))).getD ⟨[], []⟩)).bind (fun wgCfg =>
  (ParseInterface env wgCfg { MTU := 1420 }).bind (fun device =>
  (ParsePeers env resolver wgCfg).bind (fun peers =>
  (parseRoutinesConfig cfg (gs "Socks5") (parseSocks5Config env)).bind (fun socks =>
  (parseRoutinesConfig cfg (gs "http") (parseHTTPConfig env)).map (fun https =>
    { Device := { device with Peers := peers },
      Routines := socks ++ https })))))

/-! ## Claim C6: the Jc range check -/

theorem except_bind_ne_error {α β : Type} {e : CfgError}
    (x : Except CfgError α) (f : α → Except CfgError β)
    (hx : x ≠ .error e) (hf : ∀ a, f a ≠ .error e) :
    x.bind f ≠ .error e := by
  cases x with
  | error e' =>
      intro h
      simp only [Except.bind] at h
      injection h with h'
      exact hx (h' ▸ rfl)
  | ok a =>
      simp only [Except.bind]
      exact hf a

theorem asecIntField_ne (key : Str) (lo hi : Int) (err : CfgError)
    (set : ASecConfigType → Int → ASecConfigType) (sec : IniSection)
    (acc : Option ASecConfigType) (e : CfgError)
    (herr : err ≠ e) (hint : ∀ r, CfgError.intParse r ≠ e) :
    asecIntField key lo hi err set sec acc ≠ .error e := by
  unfold asecIntField
  split
  · simp
  · split
    · simp [hint]
    · split
      · simp [herr]
      · simp

theorem asecUintField_ne (key : Str) (err : CfgError)
    (set : ASecConfigType → Nat → ASecConfigType) (sec : IniSection)
    (acc : Option ASecConfigType) (e : CfgError)
    (herr : err ≠ e) (hint : ∀ r, CfgError.uintParse r ≠ e) :
    asecUintField key err set sec acc ≠ .error e := by
  unfold asecUintField
  split
  · simp
  · split
    · simp [hint]
    · split
      · simp [herr]
      · simp

theorem asecStrField_ne (key : Str)
    (set : ASecConfigType → Str → ASecConfigType) (sec : IniSection)
    (acc : Option ASecConfigType) (e : CfgError) :
    asecStrField key set sec acc ≠ .error e := by
  unfold asecStrField
  split <;> simp

theorem asecStepITime_ne (sec : IniSection) (acc : Option ASecConfigType)
    (e : CfgError) (hneg : CfgError.itimeNegative ≠ e)
    (hint : ∀ r, CfgError.intParse r ≠ e) :
    asecStepITime sec acc ≠ .error e := by
  unfold asecStepITime
  split
  · simp
  · split
    · simp [hint]
    · split
      · simp [hneg]
      · simp

theorem validateASecConfig_cases (acc : Option ASecConfigType) (e : CfgError)
    (h : ValidateASecConfig acc = some e) :
    e = .jminGtJmax ∨ e = .s1s2Collision ∨
    (∃ i, e = .hConflict i) ∨ (∃ i, e = .hUnset i) := by
  unfold ValidateASecConfig at h
  cases acc with
  | none => simp at h
  | some a =>
      simp only at h
      split at h
      · injection h with h'; exact Or.inl h'.symm
      · split at h
        · injection h with h'; exact Or.inr (Or.inl h'.symm)
        · split at h
          · injection h with h'
            exact Or.inr (Or.inr (Or.inl ⟨_, h'.symm⟩))
          · split at h
            · split at h
              · injection h with h'
                exact Or.inr (Or.inr (Or.inr ⟨_, h'.symm⟩))
              · simp at h
            · simp at h

/-- After a successful `Jc` block, no later block of `ParseASecConfig` can
produce the Jc range error. -/
theorem asecRest_ne_jcRange (sec : IniSection) (acc : Option ASecConfigType) :
    asecRest sec acc ≠ .error CfgError.jcRange := by
  unfold asecRest
  refine except_bind_ne_error _ _
    (asecIntField_ne _ _ _ _ _ _ _ _ (by simp) (by simp)) (fun a => ?_)
  refine except_bind_ne_error _ _
    (asecIntField_ne _ _ _ _ _ _ _ _ (by simp) (by simp)) (fun a => ?_)
  refine except_bind_ne_error _ _
    (asecIntField_ne _ _ _ _ _ _ _ _ (by simp) (by simp)) (fun a => ?_)
  refine except_bind_ne_error _ _
    (asecIntField_ne _ _ _ _ _ _ _ _ (by simp) (by simp)) (fun a => ?_)
  refine except_bind_ne_error _ _
    (asecUintField_ne _ _ _ _ _ _ (by simp) (by simp)) (fun a => ?_)
  refine except_bind_ne_error _ _
    (asecUintField_ne _ _ _ _ _ _ (by simp) (by simp)) (fun a => ?_)
  refine except_bind_ne_error _ _
    (asecUintField_ne _ _ _ _ _ _ (by simp) (by simp)) (fun a => ?_)
  refine except_bind_ne_error _ _
    (asecUintField_ne _ _ _ _ _ _ (by simp) (by simp)) (fun a => ?_)
  refine except_bind_ne_error _ _ (asecStrField_ne _ _ _ _ _) (fun a => ?_)
  refine except_bind_ne_error _ _ (asecStrField_ne _ _ _ _ _) (fun a => ?_)
  refine except_bind_ne_error _ _ (asecStrField_ne _ _ _ _ _) (fun a => ?_)
  refine except_bind_ne_error _ _ (asecStrField_ne _ _ _ _ _) (fun a => ?_)
  refine except_bind_ne_error _ _ (asecStrField_ne _ _ _ _ _) (fun a => ?_)
  refine except_bind_ne_error _ _ (asecStrField_ne _ _ _ _ _) (fun a => ?_)
  refine except_bind_ne_error _ _ (asecStrField_ne _ _ _ _ _) (fun a => ?_)
  refine except_bind_ne_error _ _ (asecStrField_ne _ _ _ _ _) (fun a => ?_)
  refine except_bind_ne_error _ _
    (asecStepITime_ne _ _ _ (by simp) (by simp)) (fun a => ?_)
  intro h
  split at h
  · injection h with h'
    rcases validateASecConfig_cases a _ (by assumption) with h1 | h1 | ⟨i, h1⟩ | ⟨i, h1⟩ <;>
      simp [h1] at h'
  · simp at h

/-- C6: for every integer value of the `Jc` key, parsing the `[Interface]`
section's ASec block fails with the Jc range error exactly when the value
lies outside `[0, 200]`; in particular `Jc=0` and `Jc=200` pass the range
check. -/
theorem claim_C6_jc_range (sec : IniSection) (raw : Str) (v : Int)
    (hk : getKey sec (gs "Jc") = some raw) (hv : goAtoi raw = some v) :
    ParseASecConfig sec = .error CfgError.jcRange ↔ (v < 0 ∨ 200 < v) := by
  unfold ParseASecConfig asecIntField
  simp only [hk, hv]
  by_cases hrange : v < 0 ∨ v > 200
  · rw [if_pos hrange]
    simp only [Except.bind]
    exact ⟨fun _ => hrange, fun _ => trivial⟩
  · rw [if_neg hrange]
    simp only [Except.bind]
    constructor
    · intro h
      exact absurd h (asecRest_ne_jcRange sec _)
    · intro h
      exact absurd h hrange

/-- C6 witness: the boundary value `Jc=200` is accepted by the range
check. -/
theorem claim_C6_jc_range_witness :
    goAtoi (gs "200") = some 200 ∧
    ParseASecConfig ⟨gs "Interface", [(gs "Jc", gs "200")]⟩ ≠
      .error CfgError.jcRange := by
  constructor
  · decide
  · intro h
    have h2 := (claim_C6_jc_range ⟨gs "Interface", [(gs "Jc", gs "200")]⟩
      (gs "200") 200 (by decide) (by decide)).mp h
    rcases h2 with h2 | h2 <;> omega

/-! ## Claim C8: environment-variable interpolation in `parseString` -/

deriving instance DecidableEq for Except

/-- C8 counterexample: the value `$$a$$` is de-escaped by
`strings.Replace(value, "$$", "$", 1)`, which replaces only the FIRST
occurrence of `$$`; the result is `$a$$`, not the claim's `$a$` (each `$$`
becoming one `$`). -/
theorem claim_C8_counterexample :
    parseString (fun _ => none) ⟨gs "Socks5", [(gs "Username", gs "$$a$$")]⟩
        (gs "Username") = .ok (gs "$a$$")
    ∧ gs "$a$$" ≠ gs "$a$" := by
  constructor
  · decide
  · decide

/-- C8 (amended): a single-token value starting with `$$` has only its
first `$$` replaced by `$` (the remainder, including any later `$$`, is
kept verbatim); a value `$NAME` not starting with `$$` resolves to the
environment variable `NAME` and fails when it is unset; a value not
starting with `$` is returned unchanged. -/
theorem claim_C8_env_interpolation (env : Env) (sec : IniSection)
    (keyName raw : Str) (hraw : keyString sec keyName = raw) :
    (∀ rest, raw = gs "$$" ++ rest →
        parseString env sec keyName = .ok ('$' :: rest))
    ∧ (∀ name, raw = '$' :: name → goHasPrefix (gs "$$") raw = false →
        parseString env sec keyName =
          (match env name with
           | some v => Except.ok v
           | none => Except.error (.envUnset keyName raw)))
    ∧ (goHasPrefix (gs "$") raw = false →
        parseString env sec keyName = .ok raw) := by
  refine ⟨?_, ?_, ?_⟩
  · intro rest hrest
    unfold parseString
    rw [hraw, hrest]
    have h1 : goHasPrefix (gs "$") (gs "$$" ++ rest) = true := by
      simp [goHasPrefix, gs, List.isPrefixOf]
    have h2 : goHasPrefix (gs "$$") (gs "$$" ++ rest) = true := by
      simp [goHasPrefix, gs, List.isPrefixOf]
    rw [if_pos h1, if_pos h2]
    have h3 : replaceFirst (gs "$$") (gs "$") (gs "$$" ++ rest) =
        '$' :: rest := by
      show replaceFirst (gs "$$") (gs "$") ('$' :: '$' :: rest) = '$' :: rest
      unfold replaceFirst
      rw [if_pos (by simp [goHasPrefix, gs, List.isPrefixOf])]
      simp [gs]
    rw [h3]
  · intro name hname hpre
    unfold parseString
    rw [hraw, hname]
    rw [hname] at hpre
    have h1 : goHasPrefix (gs "$") ('$' :: name) = true := by
      simp [goHasPrefix, gs, List.isPrefixOf]
    rw [if_pos h1, if_neg (by simp [hpre])]
    have hdrop : ('$' :: name).drop (gs "$").length = name := by simp [gs]
    rw [hdrop]
  · intro hpre
    unfold parseString
    rw [hraw, if_neg (by simp [hpre])]

/-- A concrete environment for the C8 witness. -/
def envWithName : Env :=
  fun s => if s = gs "NAME" then some (gs "resolved-value") else none

/-- C8 witness: `$NAME` resolves through the environment. -/
theorem claim_C8_env_interpolation_witness :
    parseString envWithName ⟨gs "Interface", [(gs "Address", gs "$NAME")]⟩
      (gs "Address") = .ok (gs "resolved-value") := by
  have h := (claim_C8_env_interpolation envWithName
    ⟨gs "Interface", [(gs "Address", gs "$NAME")]⟩
    (gs "Address") (gs "$NAME") (by decide)).2.1 (gs "NAME") (by decide) (by decide)
  rw [h]
  decide


/-! ## Claim C7: ListenPort is stored without a range check -/

theorem interfaceStepDomainBlocking_preserves (sec : IniSection)
    (dev dev' : DeviceConfig)
    (h : interfaceStepDomainBlocking sec dev = .ok dev') :
    dev'.ListenPort = dev.ListenPort := by
  unfold interfaceStepDomainBlocking at h
  split at h
  · injection h with h'; rw [← h']
  · split at h
    · exact absurd h (by simp)
    · injection h with h'; rw [← h']

theorem interfaceStepCheckAliveInterval_preserves (sec : IniSection)
    (dev dev' : DeviceConfig)
    (h : interfaceStepCheckAliveInterval sec dev = .ok dev') :
    dev'.ListenPort = dev.ListenPort := by
  unfold interfaceStepCheckAliveInterval at h
  split at h
  · injection h with h'; rw [← h']
  · split at h
    · exact absurd h (by simp)
    · split at h
      · exact absurd h (by simp)
      · injection h with h'; rw [← h']

/-- C7 counterexample: an `[Interface]` section with `ListenPort = 70000`
parses successfully and stores port 70000: `ParseInterface` applies no
port range check (the range-checking `parsePort` helper is never called
for ListenPort). -/
theorem claim_C7_counterexample :
    ((ParseInterface (fun _ => none)
        [⟨gs "Interface",
          [(gs "PrivateKey", gs "LAr1aNSNF9d0MjwUgAVC4020T0N/E5NUtqVv5EnsSz0="),
           (gs "Address", gs "10.5.0.2"),
           (gs "ListenPort", gs "70000")]⟩] {}).toOption.map
      (fun d => d.ListenPort)) = some (some 70000) := by decide

/-- C7 (amended): with a `ListenPort` key present, `ParseInterface` fails
on that key only when its value is not an integer; every integer value
`v` — also one outside `[0, 65535]`, such as 70000 or -1 — is accepted and
stored as the listen port whenever parsing succeeds. -/
theorem claim_C7_listen_port (env : Env) (cfg : IniFile)
    (device d : DeviceConfig) (sec : IniSection) (raw : Str)
    (hsec : sectionsByName cfg (gs "Interface") = [sec])
    (hk : getKey sec (gs "ListenPort") = some raw) :
    (∀ v, goAtoi raw = some v →
        ParseInterface env cfg device = .ok d → d.ListenPort = some v)
    ∧ (goAtoi raw = none → ParseInterface env cfg device ≠ .ok d) := by
  have hred : ParseInterface env cfg device = parseInterfaceSection env sec device := by
    unfold ParseInterface
    rw [hsec]
  rw [hred]
  unfold parseInterfaceSection
  constructor
  · intro v hv hok
    rcases hA : parseCIDRNetIP env sec (gs "Address") with eA | vA <;>
      rw [hA] at hok <;> simp only [Except.bind] at hok
    · exact Except.noConfusion hok
    rcases hP : parseBase64KeyToHex env sec (gs "PrivateKey") with eP | vP <;>
      rw [hP] at hok <;> simp only [Except.bind] at hok
    · exact Except.noConfusion hok
    rcases hD : parseNetIP env sec (gs "DNS") with eD | vD <;>
      rw [hD] at hok <;> simp only [Except.bind] at hok
    · exact Except.noConfusion hok
    rcases hM : interfaceStepMTU sec
        { device with Endpoint := vA, SecretKey := vP, DNS := vD } with eM | dM <;>
      rw [hM] at hok <;> simp only [Except.bind] at hok
    · exact Except.noConfusion hok
    have hLP : interfaceStepListenPort sec dM =
        .ok { dM with ListenPort := some v } := by
      unfold interfaceStepListenPort
      simp only [hk, hv]
    rw [hLP] at hok
    simp only [Except.bind] at hok
    rcases hCA : parseNetIP env sec (gs "CheckAlive") with eCA | vCA <;>
      rw [hCA] at hok <;> simp only [Except.bind] at hok
    · exact Except.noConfusion hok
    rcases hDB : interfaceStepDomainBlocking sec
        { dM with ListenPort := some v, CheckAlive := vCA } with eDB | dDB <;>
      rw [hDB] at hok <;> simp only [Except.bind] at hok
    · exact Except.noConfusion hok
    rcases hBD : parseStrings env sec (gs "BlockedDomains") with eBD | vBD <;>
      rw [hBD] at hok <;> simp only [Except.bind] at hok
    · exact Except.noConfusion hok
    rcases hCI : interfaceStepCheckAliveInterval sec
        { dDB with BlockedDomains := vBD, CheckAliveInterval := 5 } with eCI | dCI <;>
      rw [hCI] at hok <;> simp only [Except.bind] at hok
    · exact Except.noConfusion hok
    rcases hAS : ParseASecConfig sec with eAS | vAS <;>
      rw [hAS] at hok <;> simp only [Except.map] at hok
    · exact Except.noConfusion hok
    injection hok with hok'
    have h2 := interfaceStepCheckAliveInterval_preserves _ _ _ hCI
    have h3 := interfaceStepDomainBlocking_preserves _ _ _ hDB
    rw [← hok']
    show dCI.ListenPort = some v
    rw [h2]
    show dDB.ListenPort = some v
    rw [h3]
  · intro hv hok
    rcases hA : parseCIDRNetIP env sec (gs "Address") with eA | vA <;>
      rw [hA] at hok <;> simp only [Except.bind] at hok
    · exact Except.noConfusion hok
    rcases hP : parseBase64KeyToHex env sec (gs "PrivateKey") with eP | vP <;>
      rw [hP] at hok <;> simp only [Except.bind] at hok
    · exact Except.noConfusion hok
    rcases hD : parseNetIP env sec (gs "DNS") with eD | vD <;>
      rw [hD] at hok <;> simp only [Except.bind] at hok
    · exact Except.noConfusion hok
    rcases hM : interfaceStepMTU sec
        { device with Endpoint := vA, SecretKey := vP, DNS := vD } with eM | dM <;>
      rw [hM] at hok <;> simp only [Except.bind] at hok
    · exact Except.noConfusion hok
    have hLP : interfaceStepListenPort sec dM = .error (.intParse raw) := by
      unfold interfaceStepListenPort
      simp only [hk, hv]
    rw [hLP] at hok
    simp only [Except.bind] at hok
    exact Except.noConfusion hok

instance : Inhabited DeviceConfig := ⟨{}⟩

/-- The interface section of the C7 witness. -/
def c7section : IniSection :=
  ⟨gs "Interface",
    [(gs "PrivateKey", gs "mBsVDahr1XIu9PPd17UmsDdB6E53nvmS47NbNqQCiFM="),
     (gs "Address", gs "10.5.0.2"),
     (gs "ListenPort", gs "70000")]⟩

/-- C7 witness for the amended theorem: with `ListenPort = 70000` the
parse succeeds and stores exactly port 70000. -/
theorem claim_C7_listen_port_witness :
    ((ParseInterface (fun _ => none) [c7section] {}).toOption.get!).ListenPort
      = some 70000 :=
  (claim_C7_listen_port (fun _ => none) [c7section] {}
    ((ParseInterface (fun _ => none) [c7section] {}).toOption.get!)
    c7section (gs "70000")
    (by decide) (by decide)).1 70000 (by decide) (by decide)

/-! ## Claim C2: which routine sections `Parse` recognises -/

instance : Inhabited Configuration := ⟨⟨{}, []⟩⟩

theorem exceptMapList_mem {α β : Type} (f : α → Except CfgError β)
    (l : List α) (rs : List β) (h : exceptMapList f l = .ok rs) :
    ∀ r ∈ rs, ∃ a ∈ l, f a = .ok r := by
  induction l generalizing rs with
  | nil =>
      unfold exceptMapList at h
      injection h with h'
      subst h'
      intro r hr
      simp at hr
  | cons a rest ih =>
      unfold exceptMapList at h
      rcases hfa : f a with e | b <;> rw [hfa] at h <;>
        simp only [Except.bind] at h
      · exact Except.noConfusion h
      rcases hrest : exceptMapList f rest with e | bs <;> rw [hrest] at h <;>
        simp only [Except.map] at h
      · exact Except.noConfusion h
      injection h with h'
      subst h'
      intro r hr
      rcases List.mem_cons.mp hr with hr | hr
      · exact ⟨a, List.mem_cons_self a rest, hr ▸ hfa⟩
      · rcases ih bs hrest r hr with ⟨x, hx, hfx⟩
        exact ⟨x, List.mem_cons_of_mem _ hx, hfx⟩

theorem parseSocks5Config_shape (env : Env) (sec : IniSection)
    (r : RoutineSpawner) (h : parseSocks5Config env sec = .ok r) :
    ∃ c, r = .socks5 c := by
  unfold parseSocks5Config at h
  rcases hb : parseString env sec (gs "BindAddress") with e | b <;>
    rw [hb] at h <;> simp only [Except.map] at h
  · exact Except.noConfusion h
  · injection h with h'
    exact ⟨_, h'.symm⟩

theorem parseHTTPConfig_shape (env : Env) (sec : IniSection)
    (r : RoutineSpawner) (h : parseHTTPConfig env sec = .ok r) :
    ∃ c, r = .http c := by
  unfold parseHTTPConfig at h
  rcases hb : parseString env sec (gs "BindAddress") with e | b <;>
    rw [hb] at h <;> simp only [Except.map] at h
  · exact Except.noConfusion h
  · injection h with h'
    exact ⟨_, h'.symm⟩

/-- C2 counterexample: a document with a valid `[Interface]`, a valid
`[Peer]` and a `[TCPClientTunnel]` section parses successfully, but its
`Routines` sequence is EMPTY — `Parse` produces no routine entry for the
tunnel section, contradicting the claim that each such section yields an
entry of the corresponding variant. -/
theorem claim_C2_counterexample :
    ((Parse (fun _ => none) (fun _ => none) (fun _ => none)
        [⟨gs "Interface",
          [(gs "PrivateKey", gs "LAr1aNSNF9d0MjwUgAVC4020T0N/E5NUtqVv5EnsSz0="),
           (gs "Address", gs "10.5.0.2")]⟩,
         ⟨gs "Peer",
          [(gs "PublicKey", gs "e8LKAc+f9xEzq9Ar7+MfKRrs+gZ/4yzvpRJLRJ/VJ1w=")]⟩,
         ⟨gs "TCPClientTunnel",
          [(gs "BindAddress", gs "127.0.0.1:2000"),
           (gs "Target", gs "example.com:80")]⟩]).toOption.map
      (fun c => c.Routines)) = some []
    ∧ sectionsByName
        [⟨gs "Interface",
          [(gs "PrivateKey", gs "LAr1aNSNF9d0MjwUgAVC4020T0N/E5NUtqVv5EnsSz0="),
           (gs "Address", gs "10.5.0.2")]⟩,
         ⟨gs "Peer",
          [(gs "PublicKey", gs "e8LKAc+f9xEzq9Ar7+MfKRrs+gZ/4yzvpRJLRJ/VJ1w=")]⟩,
         ⟨gs "TCPClientTunnel",
          [(gs "BindAddress", gs "127.0.0.1:2000"),
           (gs "Target", gs "example.com:80")]⟩] (gs "TCPClientTunnel") ≠ [] := by
  constructor
  · decide
  · decide

/-- C2 (amended): `Parse` only recognises `[Socks5]` and `[http]` routine
sections: every entry of the returned `Routines` sequence is a SOCKS5 or
an HTTP variant; `[TCPClientTunnel]`, `[TCPServerTunnel]` and
`[STDIOTunnel]` sections are ignored and never produce an entry. -/
theorem claim_C2_routines (env : Env) (resolver : Str → Option Str)
    (wgLoad : Str → Option IniFile) (cfg : IniFile) (conf : Configuration)
    (h : Parse env resolver wgLoad cfg = .ok conf) :
    ∀ r ∈ conf.Routines,
      (∃ c, r = RoutineSpawner.socks5 c) ∨ (∃ c, r = RoutineSpawner.http c) := by
  unfold Parse at h
  rcases hW : parseWgCfgSource wgLoad cfg
      ((cfg.find? (fun s => s.name == ([] : Str))).getD ⟨[], []⟩) with e | wgCfg <;>
    rw [hW] at h <;> simp only [Except.bind] at h
  · exact Except.noConfusion h
  rcases hI : ParseInterface env wgCfg { MTU := 1420 } with e | device <;>
    rw [hI] at h <;> simp only [Except.bind] at h
  · exact Except.noConfusion h
  rcases hP : ParsePeers env resolver wgCfg with e | peers <;>
    rw [hP] at h <;> simp only [Except.bind] at h
  · exact Except.noConfusion h
  rcases hS : parseRoutinesConfig cfg (gs "Socks5") (parseSocks5Config env)
      with e | socks <;> rw [hS] at h <;> simp only [Except.bind] at h
  · exact Except.noConfusion h
  rcases hH : parseRoutinesConfig cfg (gs "http") (parseHTTPConfig env)
      with e | https <;> rw [hH] at h <;> simp only [Except.map] at h
  · exact Except.noConfusion h
  injection h with h'
  intro r hr
  have hroutines : conf.Routines = socks ++ https := by rw [← h']
  rw [hroutines] at hr
  rcases List.mem_append.mp hr with hr | hr
  · unfold parseRoutinesConfig at hS
    rcases exceptMapList_mem _ _ _ hS r hr with ⟨s, _, hfs⟩
    exact Or.inl (parseSocks5Config_shape env s r hfs)
  · unfold parseRoutinesConfig at hH
    rcases exceptMapList_mem _ _ _ hH r hr with ⟨s, _, hfs⟩
    exact Or.inr (parseHTTPConfig_shape env s r hfs)

/-- The document of the C2 witness: one `[Socks5]` routine section. -/
def c2socksDoc : IniFile :=
  [⟨gs "Interface",
    [(gs "PrivateKey", gs "LAr1aNSNF9d0MjwUgAVC4020T0N/E5NUtqVv5EnsSz0="),
     (gs "Address", gs "10.5.0.2")]⟩,
   ⟨gs "Peer",
    [(gs "PublicKey", gs "e8LKAc+f9xEzq9Ar7+MfKRrs+gZ/4yzvpRJLRJ/VJ1w=")]⟩,
   ⟨gs "Socks5", [(gs "BindAddress", gs "127.0.0.1:25344")]⟩]

instance : Inhabited RoutineSpawner := ⟨.stdioTunnel ⟨[]⟩⟩

/-- C2 witness: on a document with a `[Socks5]` section, the parsed
routine entry is a SOCKS5 or HTTP variant — never a tunnel variant. -/
theorem claim_C2_routines_witness :
    ((Parse (fun _ => none) (fun _ => none) (fun _ => none)
        c2socksDoc).toOption.get!).Routines.headI ≠
      RoutineSpawner.tcpClientTunnel ⟨gs "t", gs "t"⟩ := by
  have h := claim_C2_routines (fun _ => none) (fun _ => none) (fun _ => none)
    c2socksDoc ((Parse (fun _ => none) (fun _ => none) (fun _ => none)
      c2socksDoc).toOption.get!) (by decide)
  have hmem : ((Parse (fun _ => none) (fun _ => none) (fun _ => none)
      c2socksDoc).toOption.get!).Routines.headI ∈
      ((Parse (fun _ => none) (fun _ => none) (fun _ => none)
        c2socksDoc).toOption.get!).Routines := by decide
  rcases h _ hmem with ⟨c, hc⟩ | ⟨c, hc⟩ <;> rw [hc] <;> simp

/-! ## Claim C9: DNS record selection in `TUNResolver.Resolve`
(src/dns.go lines 21-49 and 52-98)

The network I/O of `queryDNS` (dial, write, read, unpack) is modelled by
passing in the answer section each query obtained (`none` stands for any
I/O or unpack failure).  Server selection and name normalisation do not
affect which record is returned. -/

/-- One resource record of a DNS answer section: an A record (IPv4), an
AAAA record (IPv6), or any other type (e.g. CNAME), which the scanning
loop skips. -/
inductive DnsRR where
  | rrA (a b c d : Nat)
  | rrAAAA (groups : List Nat)
  | rrOther
deriving DecidableEq

/-- Models the answer-scanning loop of `queryDNS` (src/dns.go lines
86-95): the `switch` returns the FIRST `*dns.A` or `*dns.AAAA` record —
regardless of the query type; with none present the query fails. -/
def queryDNSSelect : List DnsRR → Option IpAddr
  | [] => none
  | .rrA a b c d :: _ => some (.v4 a b c d)
  | .rrAAAA g :: _ => some (.v6 g)
  | .rrOther :: rest => queryDNSSelect rest

/-- Models `Resolve` (src/dns.go lines 21-49) given the two query
outcomes: use the A query's record if it yielded one, otherwise fall back
to the AAAA query; fail when both yield nothing. -/
def resolveFromAnswers (aResp aaaaResp : Option (List DnsRR)) : Option IpAddr :=
  match aResp with
  | some answers =>
      match queryDNSSelect answers with
      | some ip => some ip
      | none =>
          match aaaaResp with
          | some answers2 => queryDNSSelect answers2
          | none => none
  | none =>
      match aaaaResp with
      | some answers2 => queryDNSSelect answers2
      | none => none

/-- C9 counterexample: when the A query's answer section lists an AAAA
record before an A record, `Resolve` returns that IPv6 — not the first
IPv4 as claimed — because `queryDNS` accepts the first A-or-AAAA record
regardless of the query type. -/
theorem claim_C9_counterexample :
    resolveFromAnswers
        (some [DnsRR.rrAAAA [9], DnsRR.rrA 93 184 216 34]) none
      = some (IpAddr.v6 [9])
    ∧ DnsRR.rrA 93 184 216 34 ∈ [DnsRR.rrAAAA [9], DnsRR.rrA 93 184 216 34]
    ∧ IpAddr.v6 [9] ≠ IpAddr.v4 93 184 216 34 := by
  refine ⟨rfl, by decide, by decide⟩

theorem queryDNSSelect_firstA (pre : List DnsRR)
    (hpre : ∀ r ∈ pre, r = DnsRR.rrOther) (a b c d : Nat) (rest : List DnsRR) :
    queryDNSSelect (pre ++ DnsRR.rrA a b c d :: rest) = some (.v4 a b c d) := by
  induction pre with
  | nil => rfl
  | cons x xs ih =>
      have hx : x = DnsRR.rrOther := hpre x (List.mem_cons_self x xs)
      subst hx
      show queryDNSSelect (DnsRR.rrOther :: (xs ++ DnsRR.rrA a b c d :: rest))
        = some (.v4 a b c d)
      rw [queryDNSSelect]
      exact ih (fun r hr => hpre r (List.mem_cons_of_mem _ hr))

/-- C9 (amended): `Resolve` returns the first A-or-AAAA record of the A
query's answer when there is one (the AAAA query is consulted only when
the A query yields no such record or fails); in particular, when the
first address record of the answer is an A record — e.g. whenever no AAAA
record precedes it — the result is that (first) IPv4. -/
theorem claim_C9_resolve (ansA : List DnsRR) (q : Option (List DnsRR)) :
    (∀ ip, queryDNSSelect ansA = some ip →
        resolveFromAnswers (some ansA) q = some ip)
    ∧ (queryDNSSelect ansA = none →
        resolveFromAnswers (some ansA) q = resolveFromAnswers none q)
    ∧ (∀ pre a b c d rest, ansA = pre ++ DnsRR.rrA a b c d :: rest →
        (∀ r ∈ pre, r = DnsRR.rrOther) →
        resolveFromAnswers (some ansA) q = some (IpAddr.v4 a b c d)) := by
  refine ⟨?_, ?_, ?_⟩
  · intro ip hsel
    unfold resolveFromAnswers
    simp only [hsel]
  · intro hsel
    unfold resolveFromAnswers
    simp only [hsel]
  · intro pre a b c d rest hans hpre
    have hsel : queryDNSSelect ansA = some (.v4 a b c d) := by
      rw [hans]
      exact queryDNSSelect_firstA pre hpre a b c d rest
    unfold resolveFromAnswers
    simp only [hsel]

/-- C9 witness: an answer of a single A record resolves to its IPv4. -/
theorem claim_C9_resolve_witness :
    resolveFromAnswers (some [DnsRR.rrA 10 0 0 1]) none
      = some (IpAddr.v4 10 0 0 1) :=
  (claim_C9_resolve [DnsRR.rrA 10 0 0 1] none).1 (IpAddr.v4 10 0 0 1) rfl

/-! ## Claim C3: `/metrics` redaction
(src/routine.go lines 70-94, `VirtualTun.ServeHTTP`)

The `/metrics` branch takes the device's UAPI get-response `get`
(`d.Dev.IpcGet()`, an external call, passed in as the parameter), splits
it on newlines, and for each line: a line that does not split into
`key=value` is written verbatim WITHOUT a newline; otherwise the value is
replaced by `REDACTED` when the key is `private_key` or `preshared_key`,
and `key=value` plus a newline is written.  A UAPI get-response consists
of `key=value` lines and empty lines, which the statement below carries
as its well-formedness hypothesis. -/

/-- The loop body of the `/metrics` branch: what one input line
contributes to the response buffer. -/
def metricsChunk (line : Str) : Str :=
  match splitN2 '=' line with
  | [k, v] =>
      if k = gs "private_key" ∨ k = gs "preshared_key" then
        k ++ '=' :: gs "REDACTED" ++ [nlChar]
      else k ++ '=' :: v ++ [nlChar]
  | _ => line

/-- The full `/metrics` response body for a device get-response. -/
def metricsBody (get : Str) : Str :=
  ((splitOnChar nlChar get).map metricsChunk).flatten

/-- The output line produced for one input line, if any: `none` for a
line without `=` (in particular the empty line, which contributes
nothing). -/
def metricsOutLine (l : Str) : Option Str :=
  match splitN2 '=' l with
  | [k, v] =>
      some (if k = gs "private_key" ∨ k = gs "preshared_key" then
              k ++ '=' :: gs "REDACTED"
            else k ++ '=' :: v)
  | _ => none

theorem splitN2_of_mem (sep : Char) (l : Str) (h : sep ∈ l) :
    ∃ k v, splitN2 sep l = [k, v] ∧ l = k ++ sep :: v ∧ sep ∉ k := by
  induction l with
  | nil => simp at h
  | cons c cs ih =>
      by_cases hc : c = sep
      · subst hc
        refine ⟨[], cs, ?_, rfl, by simp⟩
        simp [splitN2]
      · have hcs : sep ∈ cs := by
          rcases List.mem_cons.mp h with h' | h'
          · exact absurd h'.symm hc
          · exact h'
        rcases ih hcs with ⟨k, v, hsplit, heq, hk⟩
        refine ⟨c :: k, v, ?_, by rw [heq]; rfl, ?_⟩
        · simp [splitN2, hc, hsplit]
        · intro hmem
          rcases List.mem_cons.mp hmem with h' | h'
          · exact hc h'.symm
          · exact hk h'

theorem splitN2_two_pieces (sep : Char) (l k v : Str)
    (h : splitN2 sep l = [k, v]) : l = k ++ sep :: v ∧ sep ∉ k := by
  by_cases hmem : sep ∈ l
  · rcases splitN2_of_mem sep l hmem with ⟨k0, v0, hsplit, heq, hk0⟩
    rw [hsplit] at h
    injection h with h1 h2
    injection h2 with h2 _
    subst h1; subst h2
    exact ⟨heq, hk0⟩
  · rw [splitN2_not_mem sep l hmem] at h
    exact absurd h (by simp)

theorem metricsChunk_of_mem (l : Str) (hmem : '=' ∈ l) :
    ∃ out, metricsOutLine l = some out ∧ metricsChunk l = out ++ [nlChar] := by
  rcases splitN2_of_mem '=' l hmem with ⟨k, v, hsplit, _, _⟩
  unfold metricsChunk metricsOutLine
  rw [hsplit]
  by_cases hsecret : k = gs "private_key" ∨ k = gs "preshared_key" <;>
    simp [hsecret]

theorem mapChunk_flatten (lines : List Str)
    (hwf : ∀ l ∈ lines, l = [] ∨ '=' ∈ l) :
    (lines.map metricsChunk).flatten =
      ((lines.filterMap metricsOutLine).map (· ++ [nlChar])).flatten := by
  induction lines with
  | nil => rfl
  | cons l rest ih =>
      have hrest : ∀ x ∈ rest, x = [] ∨ '=' ∈ x :=
        fun x hx => hwf x (List.mem_cons_of_mem _ hx)
      rcases hwf l (List.mem_cons_self l rest) with rfl | hmem
      · have hchunk : metricsChunk [] = [] := rfl
        have hout : metricsOutLine [] = none := rfl
        simp only [List.map_cons, List.flatten_cons, List.filterMap_cons,
          hchunk, hout, ih hrest, List.nil_append]
      · rcases metricsChunk_of_mem l hmem with ⟨out, hout, hchunk⟩
        simp only [List.map_cons, List.flatten_cons, List.filterMap_cons,
          hchunk, hout, ih hrest]

/-- The per-line outputs contain no newline when the input lines do not. -/
theorem metricsOutLine_nl_free (l out : Str) (hl : nlChar ∉ l)
    (h : metricsOutLine l = some out) : nlChar ∉ out := by
  unfold metricsOutLine at h
  rcases hsplit : splitN2 '=' l with _ | ⟨k, tl⟩
  · rw [hsplit] at h; exact absurd h (by simp)
  rcases tl with _ | ⟨v, tl2⟩
  · rw [hsplit] at h; exact absurd h (by simp)
  rcases tl2 with _ | _
  · rw [hsplit] at h
    injection h with h'
    rcases splitN2_two_pieces '=' l k v hsplit with ⟨heq, _⟩
    subst heq
    rw [← h']
    intro hmem
    split at hmem
    · rcases List.mem_append.mp hmem with hx | hx
      · exact hl (List.mem_append.mpr (Or.inl hx))
      · rcases List.mem_cons.mp hx with hx | hx
        · exact absurd hx (by decide)
        · exact absurd hx (by decide)
    · rcases List.mem_append.mp hmem with hx | hx
      · exact hl (List.mem_append.mpr (Or.inl hx))
      · rcases List.mem_cons.mp hx with hx | hx
        · exact absurd hx (by decide)
        · exact hl (List.mem_append.mpr (Or.inr (List.mem_cons_of_mem _ hx)))
  · rw [hsplit] at h; exact absurd h (by simp)

/-- C3: for a UAPI get-response (every line empty or `key=value`), the
`/metrics` output contains no line whose key is `private_key` or
`preshared_key` with a value other than `REDACTED`; every secret-keyed
`key=value` line of the response appears in the output as the line
`key=REDACTED`; and every other `key=value` line of the response passes
through unchanged as an output line. -/
theorem claim_C3_metrics_redaction (get : Str)
    (hwf : ∀ l ∈ splitOnChar nlChar get, l = [] ∨ '=' ∈ l) :
    (∀ l ∈ splitOnChar nlChar (metricsBody get), ∀ k v,
        splitN2 '=' l = [k, v] →
        (k = gs "private_key" ∨ k = gs "preshared_key") →
        v = gs "REDACTED")
    ∧ (∀ l ∈ splitOnChar nlChar get, ∀ k v,
        splitN2 '=' l = [k, v] →
        (k = gs "private_key" ∨ k = gs "preshared_key") →
        (k ++ '=' :: gs "REDACTED") ∈ splitOnChar nlChar (metricsBody get))
    ∧ (∀ l ∈ splitOnChar nlChar get, ∀ k v,
        splitN2 '=' l = [k, v] →
        k ≠ gs "private_key" → k ≠ gs "preshared_key" →
        l ∈ splitOnChar nlChar (metricsBody get)) := by
  have hnl0 : ∀ l ∈ splitOnChar nlChar get, nlChar ∉ l :=
    splitOnChar_mem_not_mem nlChar get
  have houts_nl : ∀ o ∈ (splitOnChar nlChar get).filterMap metricsOutLine,
      nlChar ∉ o := by
    intro o ho
    rcases List.mem_filterMap.mp ho with ⟨l0, hl0, hout⟩
    exact metricsOutLine_nl_free l0 o (hnl0 l0 hl0) hout
  have hsplit : splitOnChar nlChar (metricsBody get) =
      (splitOnChar nlChar get).filterMap metricsOutLine ++ [[]] := by
    have hbody : metricsBody get =
        (((splitOnChar nlChar get).filterMap metricsOutLine).map
          (· ++ [nlChar])).flatten :=
      mapChunk_flatten (splitOnChar nlChar get) hwf
    rw [hbody]
    exact splitOnChar_joinLines nlChar _ houts_nl
  refine ⟨?_, ?_, ?_⟩
  · intro l hl k v hkv hsecret
    rw [hsplit] at hl
    rcases List.mem_append.mp hl with hl | hl
    · rcases List.mem_filterMap.mp hl with ⟨l0, hl0, hout⟩
      unfold metricsOutLine at hout
      rcases hsp : splitN2 '=' l0 with _ | ⟨k0, tl⟩ <;> rw [hsp] at hout
      · exact absurd hout (by simp)
      rcases tl with _ | ⟨v0, tl2⟩
      · exact absurd hout (by simp)
      rcases tl2 with _ | _
      swap
      · exact absurd hout (by simp)
      injection hout with hout'
      rcases splitN2_two_pieces '=' l0 k0 v0 hsp with ⟨_, hk0free⟩
      by_cases hsec0 : k0 = gs "private_key" ∨ k0 = gs "preshared_key"
      · rw [if_pos hsec0] at hout'
        rw [← hout', splitN2_append '=' k0 (gs "REDACTED") hk0free] at hkv
        injection hkv with h1 h2
        injection h2 with h2 _
        exact h2.symm
      · rw [if_neg hsec0] at hout'
        rw [← hout', splitN2_append '=' k0 v0 hk0free] at hkv
        injection hkv with h1 h2
        subst h1
        exact absurd hsecret hsec0
    · rcases List.mem_cons.mp hl with hl | hl
      · subst hl
        simp [splitN2] at hkv
      · simp at hl
  · intro l hl k v hkv hsecret
    have hout : metricsOutLine l = some (k ++ '=' :: gs "REDACTED") := by
      unfold metricsOutLine
      simp only [hkv]
      rw [if_pos hsecret]
    rw [hsplit]
    exact List.mem_append.mpr
      (Or.inl (List.mem_filterMap.mpr ⟨l, hl, hout⟩))
  · intro l hl k v hkv hk1 hk2
    rcases splitN2_two_pieces '=' l k v hkv with ⟨heq, _⟩
    have hout : metricsOutLine l = some l := by
      unfold metricsOutLine
      simp only [hkv]
      rw [if_neg (by simp [hk1, hk2]), heq]
    rw [hsplit]
    exact List.mem_append.mpr
      (Or.inl (List.mem_filterMap.mpr ⟨l, hl, hout⟩))

/-- C3 witness: in a two-line get-response the private_key line appears
in the output with its value replaced by REDACTED. -/
theorem claim_C3_metrics_redaction_witness :
    (gs "private_key" ++ '=' :: gs "REDACTED") ∈ splitOnChar nlChar
      (metricsBody (gs "private_key=abc\npublic_key=def\n")) :=
  (claim_C3_metrics_redaction (gs "private_key=abc\npublic_key=def\n")
      (by decide)).2.1
    (gs "private_key=abc") (by decide) (gs "private_key") (gs "abc")
    (by decide) (by decide)

/-! ## UAPI serializer (src/unnamed/part_001 lines 812-898,
`CreateIPCRequest`)

The heredoc blocks of the source expand to the newline-terminated
`key=value` lines written below.  `src/wireguard.go` carries an older
variant of the same function (no `isUpdate` parameter, no
`replace_allowed_ips` line, `::0/0` fallback); the specification's
load-path ordering describes the version modelled here. -/

/-- src/unnamed/part_001 lines 63-69 (`DeviceSetting`). -/
structure DeviceSetting where
  IpcRequest : Str
  DNS : List IpAddr
  DeviceAddr : List IpAddr
  MTU : Int
deriving DecidableEq

/-- An optional `key=value` line as written to the request: empty when
the optional field is absent. -/
def optTextLine (o : Option Str) (pre : Str) : Str :=
  match o with
  | some s => pre ++ s ++ [nlChar]
  | none => []

/-- The ASec block of the request (lines 821-865). -/
def asecText (a : ASecConfigType) : Str :=
  gs "jc=" ++ intRepr a.junkPacketCount ++ [nlChar] ++
  (gs "jmin=" ++ intRepr a.junkPacketMinSize ++ [nlChar] ++
  (gs "jmax=" ++ intRepr a.junkPacketMaxSize ++ [nlChar] ++
  (gs "s1=" ++ intRepr a.initPacketJunkSize ++ [nlChar] ++
  (gs "s2=" ++ intRepr a.responsePacketJunkSize ++ [nlChar] ++
  (gs "h1=" ++ natRepr a.initPacketMagicHeader ++ [nlChar] ++
  (gs "h2=" ++ natRepr a.responsePacketMagicHeader ++ [nlChar] ++
  (gs "h3=" ++ natRepr a.underloadPacketMagicHeader ++ [nlChar] ++
  (gs "h4=" ++ natRepr a.transportPacketMagicHeader ++ [nlChar] ++
  (optTextLine a.i1 (gs "i1=") ++
  (optTextLine a.i2 (gs "i2=") ++
  (optTextLine a.i3 (gs "i3=") ++
  (optTextLine a.i4 (gs "i4=") ++
  (optTextLine a.i5 (gs "i5=") ++
  (optTextLine a.j1 (gs "j1=") ++
  (optTextLine a.j2 (gs "j2=") ++
  (optTextLine a.j3 (gs "j3=") ++
  optTextLine (a.itime.map intRepr) (gs "itime=")))))))))))))))))

/-- One peer's block of the request (lines 871-894). -/
def peerText (peer : PeerConfig) : Str :=
  gs "public_key=" ++ peer.PublicKey ++ [nlChar] ++
  (gs "persistent_keepalive_interval=" ++ intRepr peer.KeepAlive ++ [nlChar] ++
  (gs "preshared_key=" ++ peer.PreSharedKey ++ [nlChar] ++
  (optTextLine peer.Endpoint (gs "endpoint=") ++
  (gs "replace_allowed_ips=true" ++ [nlChar] ++
  (if peer.AllowedIPs.length > 0 then
     (peer.AllowedIPs.map
       (fun ip => gs "allowed_ip=" ++ prefixStr ip ++ [nlChar])).flatten
   else
     gs "allowed_ip=0.0.0.0/0" ++ [nlChar] ++
       (gs "allowed_ip=::/0" ++ [nlChar]))))))

/-- The full request text of `CreateIPCRequest`. -/
def ipcRequestText (conf : DeviceConfig) (isUpdate : Bool) : Str :=
  gs "private_key=" ++ conf.SecretKey ++ [nlChar] ++
  (optTextLine (conf.ListenPort.map intRepr) (gs "listen_port=") ++
  ((match conf.ASecConfig with
    | some a => asecText a
    | none => []) ++
  ((if isUpdate then gs "replace_peers=true" ++ [nlChar] else []) ++
  (conf.Peers.map peerText).flatten)))

/-- Models `CreateIPCRequest` (src/unnamed/part_001 lines 812-898); the
source never returns an error. -/
def CreateIPCRequest (conf : DeviceConfig) (isUpdate : Bool) :
    Except CfgError DeviceSetting :=
  .ok { IpcRequest := ipcRequestText conf isUpdate, DNS := conf.DNS,
        DeviceAddr := conf.Endpoint, MTU := conf.MTU }

/-! The request's line structure (its text split on newlines), stated from
the specification's load-path ordering to be compared with the text the
source builds. -/

/-- An optional `key=value` line, as a (zero- or one-element) line list. -/
def optLine (o : Option Str) (pre : Str) : List Str :=
  match o with
  | some s => [pre ++ s]
  | none => []

/-- The ASec block, as lines. -/
def asecLines (a : ASecConfigType) : List Str :=
  [gs "jc=" ++ intRepr a.junkPacketCount,
   gs "jmin=" ++ intRepr a.junkPacketMinSize,
   gs "jmax=" ++ intRepr a.junkPacketMaxSize,
   gs "s1=" ++ intRepr a.initPacketJunkSize,
   gs "s2=" ++ intRepr a.responsePacketJunkSize,
   gs "h1=" ++ natRepr a.initPacketMagicHeader,
   gs "h2=" ++ natRepr a.responsePacketMagicHeader,
   gs "h3=" ++ natRepr a.underloadPacketMagicHeader,
   gs "h4=" ++ natRepr a.transportPacketMagicHeader]
  ++ (optLine a.i1 (gs "i1=") ++
     (optLine a.i2 (gs "i2=") ++
     (optLine a.i3 (gs "i3=") ++
     (optLine a.i4 (gs "i4=") ++
     (optLine a.i5 (gs "i5=") ++
     (optLine a.j1 (gs "j1=") ++
     (optLine a.j2 (gs "j2=") ++
     (optLine a.j3 (gs "j3=") ++
     optLine (a.itime.map intRepr) (gs "itime=")))))))))

/-- One peer's `allowed_ip` lines: the enumerated prefixes, or the
implicit full-coverage fallback for an empty sequence. -/
def allowedIpLines (peer : PeerConfig) : List Str :=
  if peer.AllowedIPs.length > 0 then
    peer.AllowedIPs.map (fun ip => gs "allowed_ip=" ++ prefixStr ip)
  else
    [gs "allowed_ip=0.0.0.0/0", gs "allowed_ip=::/0"]

/-- One peer's block, as lines. -/
def peerLines (peer : PeerConfig) : List Str :=
  (gs "public_key=" ++ peer.PublicKey) ::
  (gs "persistent_keepalive_interval=" ++ intRepr peer.KeepAlive) ::
  (gs "preshared_key=" ++ peer.PreSharedKey) ::
  (optLine peer.Endpoint (gs "endpoint=") ++
    (gs "replace_allowed_ips=true") :: allowedIpLines peer)

/-- The whole request, as lines, in the specification's load-path order. -/
def ipcRequestLines (conf : DeviceConfig) (isUpdate : Bool) : List Str :=
  (gs "private_key=" ++ conf.SecretKey) ::
  (optLine (conf.ListenPort.map intRepr) (gs "listen_port=") ++
  ((match conf.ASecConfig with
    | some a => asecLines a
    | none => []) ++
  ((if isUpdate then [gs "replace_peers=true"] else []) ++
  conf.Peers.flatMap peerLines)))

theorem joinLines_nil : joinLines [] = [] := rfl

theorem joinLines_cons (x : Str) (L : List Str) :
    joinLines (x :: L) = x ++ [nlChar] ++ joinLines L := by
  simp [joinLines]

theorem joinLines_append (a b : List Str) :
    joinLines (a ++ b) = joinLines a ++ joinLines b := by
  simp [joinLines]

theorem joinLines_optLine (o : Option Str) (pre : Str) :
    joinLines (optLine o pre) = optTextLine o pre := by
  cases o <;> simp [optLine, optTextLine, joinLines]

theorem joinLines_flatMap {α : Type} (f : α → List Str) (l : List α) :
    joinLines (l.flatMap f) = (l.map (fun x => joinLines (f x))).flatten := by
  induction l with
  | nil => rfl
  | cons x xs ih =>
      simp only [List.flatMap_cons, List.map_cons, List.flatten_cons,
        joinLines_append, ih]

/-- The source-built ASec text is the newline-joining of the ASec lines. -/
theorem asecText_eq (a : ASecConfigType) :
    asecText a = joinLines (asecLines a) := by
  unfold asecText asecLines
  simp only [joinLines_cons, joinLines_nil, joinLines_append,
    joinLines_optLine, List.append_assoc, List.append_nil]

theorem joinLines_map {α : Type} (f : α → Str) (l : List α) :
    joinLines (l.map f) = (l.map (fun x => f x ++ [nlChar])).flatten := by
  induction l with
  | nil => rfl
  | cons x xs ih =>
      simp only [List.map_cons, joinLines_cons, List.flatten_cons, ih,
        List.append_assoc]

/-- The source-built peer text is the newline-joining of the peer lines. -/
theorem peerText_eq (peer : PeerConfig) :
    peerText peer = joinLines (peerLines peer) := by
  unfold peerText peerLines allowedIpLines
  by_cases h : peer.AllowedIPs.length > 0 <;>
    simp only [h, if_true, if_false, joinLines_cons, joinLines_nil,
      joinLines_append, joinLines_optLine, joinLines_map,
      List.append_assoc, List.append_nil]

theorem map_peerText (l : List PeerConfig) :
    l.map peerText = l.map (fun p => joinLines (peerLines p)) := by
  induction l with
  | nil => rfl
  | cons p ps ih => simp [peerText_eq p, ih]

/-- The request text built by `CreateIPCRequest` is exactly the
newline-joining of the specification's load-path line list. -/
theorem ipcRequestText_eq (conf : DeviceConfig) (isUpdate : Bool) :
    ipcRequestText conf isUpdate = joinLines (ipcRequestLines conf isUpdate) := by
  unfold ipcRequestText ipcRequestLines
  cases hA : conf.ASecConfig <;> cases isUpdate <;>
    simp only [joinLines_cons, joinLines_nil, joinLines_append,
      joinLines_optLine, joinLines_flatMap, asecText_eq, map_peerText,
      if_true, if_false, List.append_assoc, List.append_nil,
      Bool.false_eq_true]

/-! Well-formedness for the serializer claims: the configuration's string
fields (and the rendered allowed-ip prefixes) contain no newline, which
is what the parser in fact produces (hex keys, resolved endpoints,
address renderings).  The predicate is computable so concrete
configurations can discharge it by evaluation. -/

/-- `True` iff the string contains no newline. -/
def strNlFree (s : Str) : Bool := decide (nlChar ∉ s)

/-- `True` iff the optional string contains no newline. -/
def optNlFree (o : Option Str) : Bool :=
  match o with
  | some s => strNlFree s
  | none => true

/-- The ASec opaque strings contain no newline. -/
def ASecConfigType.strsNlFree (a : ASecConfigType) : Bool :=
  optNlFree a.i1 && optNlFree a.i2 && optNlFree a.i3 && optNlFree a.i4 &&
  optNlFree a.i5 && optNlFree a.j1 && optNlFree a.j2 && optNlFree a.j3

/-- The peer's string fields and rendered prefixes contain no newline. -/
def PeerConfig.strsNlFree (p : PeerConfig) : Bool :=
  strNlFree p.PublicKey && strNlFree p.PreSharedKey && optNlFree p.Endpoint &&
  p.AllowedIPs.all (fun ip => strNlFree (prefixStr ip))

/-- The device's string fields contain no newline. -/
def DeviceConfig.uapiSafe (conf : DeviceConfig) : Bool :=
  strNlFree conf.SecretKey &&
  (match conf.ASecConfig with
   | some a => a.strsNlFree
   | none => true) &&
  conf.Peers.all PeerConfig.strsNlFree

theorem strNlFree_iff (s : Str) : strNlFree s = true ↔ nlChar ∉ s := by
  simp [strNlFree]

theorem nl_concat (pre payload : Str) (h1 : nlChar ∉ pre)
    (h2 : nlChar ∉ payload) : nlChar ∉ pre ++ payload := fun h =>
  (List.mem_append.mp h).elim h1 h2

theorem optLine_nl_free (o : Option Str) (pre : Str) (hpre : nlChar ∉ pre)
    (ho : optNlFree o = true) : ∀ l ∈ optLine o pre, nlChar ∉ l := by
  cases o with
  | none => intro l hl; simp [optLine] at hl
  | some s =>
      intro l hl
      simp only [optLine, List.mem_singleton] at hl
      subst hl
      exact nl_concat pre s hpre (by simpa [optNlFree, strNlFree] using ho)

theorem optLine_intRepr_nl_free (o : Option Int) (pre : Str)
    (hpre : nlChar ∉ pre) :
    ∀ l ∈ optLine (o.map intRepr) pre, nlChar ∉ l := by
  cases o with
  | none => intro l hl; simp [optLine] at hl
  | some t =>
      intro l hl
      have hred : optLine ((some t : Option Int).map intRepr) pre
          = [pre ++ intRepr t] := rfl
      rw [hred] at hl
      simp only [List.mem_singleton] at hl
      subst hl
      exact nl_concat pre (intRepr t) hpre (nl_not_mem_intRepr t)

theorem asecLines_nl_free (a : ASecConfigType) (h : a.strsNlFree = true) :
    ∀ l ∈ asecLines a, nlChar ∉ l := by
  simp only [ASecConfigType.strsNlFree, Bool.and_eq_true] at h
  obtain ⟨⟨⟨⟨⟨⟨⟨h1, h2⟩, h3⟩, h4⟩, h5⟩, h6⟩, h7⟩, h8⟩ := h
  intro l hl
  unfold asecLines at hl
  rcases List.mem_append.mp hl with hl | hl
  · simp only [List.mem_cons, List.mem_singleton] at hl
    rcases hl with rfl | rfl | rfl | rfl | rfl | rfl | rfl | rfl | rfl | hl
    · exact nl_concat _ _ (by decide) (nl_not_mem_intRepr _)
    · exact nl_concat _ _ (by decide) (nl_not_mem_intRepr _)
    · exact nl_concat _ _ (by decide) (nl_not_mem_intRepr _)
    · exact nl_concat _ _ (by decide) (nl_not_mem_intRepr _)
    · exact nl_concat _ _ (by decide) (nl_not_mem_intRepr _)
    · exact nl_concat _ _ (by decide) (nl_not_mem_natRepr _)
    · exact nl_concat _ _ (by decide) (nl_not_mem_natRepr _)
    · exact nl_concat _ _ (by decide) (nl_not_mem_natRepr _)
    · exact nl_concat _ _ (by decide) (nl_not_mem_natRepr _)
    · simp at hl
  · rcases List.mem_append.mp hl with hl | hl
    · exact optLine_nl_free _ _ (by decide) h1 l hl
    rcases List.mem_append.mp hl with hl | hl
    · exact optLine_nl_free _ _ (by decide) h2 l hl
    rcases List.mem_append.mp hl with hl | hl
    · exact optLine_nl_free _ _ (by decide) h3 l hl
    rcases List.mem_append.mp hl with hl | hl
    · exact optLine_nl_free _ _ (by decide) h4 l hl
    rcases List.mem_append.mp hl with hl | hl
    · exact optLine_nl_free _ _ (by decide) h5 l hl
    rcases List.mem_append.mp hl with hl | hl
    · exact optLine_nl_free _ _ (by decide) h6 l hl
    rcases List.mem_append.mp hl with hl | hl
    · exact optLine_nl_free _ _ (by decide) h7 l hl
    rcases List.mem_append.mp hl with hl | hl
    · exact optLine_nl_free _ _ (by decide) h8 l hl
    · exact optLine_intRepr_nl_free _ _ (by decide) l hl

theorem peerLines_nl_free (p : PeerConfig) (h : p.strsNlFree = true) :
    ∀ l ∈ peerLines p, nlChar ∉ l := by
  simp only [PeerConfig.strsNlFree, Bool.and_eq_true] at h
  obtain ⟨⟨⟨h1, h2⟩, h3⟩, h4⟩ := h
  intro l hl
  unfold peerLines at hl
  rcases List.mem_cons.mp hl with rfl | hl
  · exact nl_concat _ _ (by decide) ((strNlFree_iff _).mp h1)
  rcases List.mem_cons.mp hl with rfl | hl
  · exact nl_concat _ _ (by decide) (nl_not_mem_intRepr _)
  rcases List.mem_cons.mp hl with rfl | hl
  · exact nl_concat _ _ (by decide) ((strNlFree_iff _).mp h2)
  rcases List.mem_append.mp hl with hl | hl
  · exact optLine_nl_free _ _ (by decide) h3 l hl
  rcases List.mem_cons.mp hl with rfl | hl
  · decide
  · unfold allowedIpLines at hl
    split at hl
    · rcases List.mem_map.mp hl with ⟨ip, hip, rfl⟩
      have := List.all_eq_true.mp h4 ip hip
      exact nl_concat _ _ (by decide) ((strNlFree_iff _).mp this)
    · simp only [List.mem_cons, List.mem_singleton] at hl
      rcases hl with rfl | rfl | hl
      · decide
      · decide
      · simp at hl

theorem ipcRequestLines_nl_free (conf : DeviceConfig) (isUpdate : Bool)
    (h : conf.uapiSafe = true) :
    ∀ l ∈ ipcRequestLines conf isUpdate, nlChar ∉ l := by
  simp only [DeviceConfig.uapiSafe, Bool.and_eq_true] at h
  obtain ⟨⟨h1, h2⟩, h3⟩ := h
  intro l hl
  unfold ipcRequestLines at hl
  rcases List.mem_cons.mp hl with rfl | hl
  · exact nl_concat _ _ (by decide) ((strNlFree_iff _).mp h1)
  rcases List.mem_append.mp hl with hl | hl
  · exact optLine_intRepr_nl_free _ _ (by decide) l hl
  rcases List.mem_append.mp hl with hl | hl
  · rcases hA : conf.ASecConfig with _ | a <;> rw [hA] at hl h2
    · simp at hl
    · exact asecLines_nl_free a h2 l hl
  rcases List.mem_append.mp hl with hl | hl
  · rcases isUpdate <;> simp only [if_true, if_false, Bool.false_eq_true] at hl
    · simp at hl
    · simp only [List.mem_singleton] at hl
      subst hl
      decide
  · rcases List.mem_flatMap.mp hl with ⟨p, hp, hlp⟩
    exact peerLines_nl_free p (List.all_eq_true.mp h3 p hp) l hlp

/-! Line keys: the text before the first `=` of a line. -/

/-- The key of a `key=value` line (first `SplitN` component). -/
def lineKey (l : Str) : Str := (splitN2 '=' l).headI

/-- The UAPI keys of the ASec block. -/
def asecKeys : List Str :=
  [gs "jc", gs "jmin", gs "jmax", gs "s1", gs "s2",
   gs "h1", gs "h2", gs "h3", gs "h4",
   gs "i1", gs "i2", gs "i3", gs "i4", gs "i5",
   gs "j1", gs "j2", gs "j3", gs "itime"]

/-- The UAPI keys of a peer block. -/
def peerKeys : List Str :=
  [gs "public_key", gs "persistent_keepalive_interval", gs "preshared_key",
   gs "endpoint", gs "replace_allowed_ips", gs "allowed_ip"]

theorem lineKey_concat (k v : Str) (h : '=' ∉ k) :
    lineKey (k ++ '=' :: v) = k := by
  unfold lineKey
  rw [splitN2_append '=' k v h]
  rfl

theorem key_shape (kv k payload : Str) (hsplit : kv = k ++ ['=']) :
    kv ++ payload = k ++ '=' :: payload := by
  subst hsplit
  simp

theorem optLine_shape (o : Option Str) (pre : Str) :
    ∀ l ∈ optLine o pre, ∃ s, o = some s ∧ l = pre ++ s := by
  cases o with
  | none => intro l hl; simp [optLine] at hl
  | some s =>
      intro l hl
      simp only [optLine, List.mem_singleton] at hl
      exact ⟨s, rfl, hl⟩

theorem optLine_intRepr_shape (o : Option Int) (pre : Str) :
    ∀ l ∈ optLine (o.map intRepr) pre,
      ∃ t, o = some t ∧ l = pre ++ intRepr t := by
  cases o with
  | none => intro l hl; simp [optLine] at hl
  | some t =>
      intro l hl
      have hred : optLine ((some t : Option Int).map intRepr) pre
          = [pre ++ intRepr t] := rfl
      rw [hred] at hl
      simp only [List.mem_singleton] at hl
      exact ⟨t, rfl, hl⟩

theorem asecLines_key_shape (a : ASecConfigType) :
    ∀ l ∈ asecLines a, ∃ k payload,
      l = k ++ '=' :: payload ∧ '=' ∉ k ∧ k ∈ asecKeys := by
  intro l hl
  unfold asecLines at hl
  rcases List.mem_append.mp hl with hl | hl
  · simp only [List.mem_cons, List.mem_singleton] at hl
    rcases hl with rfl | rfl | rfl | rfl | rfl | rfl | rfl | rfl | rfl | hl
    · exact ⟨gs "jc", _, key_shape _ _ _ (by decide), by decide, by decide⟩
    · exact ⟨gs "jmin", _, key_shape _ _ _ (by decide), by decide, by decide⟩
    · exact ⟨gs "jmax", _, key_shape _ _ _ (by decide), by decide, by decide⟩
    · exact ⟨gs "s1", _, key_shape _ _ _ (by decide), by decide, by decide⟩
    · exact ⟨gs "s2", _, key_shape _ _ _ (by decide), by decide, by decide⟩
    · exact ⟨gs "h1", _, key_shape _ _ _ (by decide), by decide, by decide⟩
    · exact ⟨gs "h2", _, key_shape _ _ _ (by decide), by decide, by decide⟩
    · exact ⟨gs "h3", _, key_shape _ _ _ (by decide), by decide, by decide⟩
    · exact ⟨gs "h4", _, key_shape _ _ _ (by decide), by decide, by decide⟩
    · simp at hl
  · rcases List.mem_append.mp hl with hl | hl
    · rcases optLine_shape _ _ l hl with ⟨s, _, rfl⟩
      exact ⟨gs "i1", s, key_shape _ _ _ (by decide), by decide, by decide⟩
    rcases List.mem_append.mp hl with hl | hl
    · rcases optLine_shape _ _ l hl with ⟨s, _, rfl⟩
      exact ⟨gs "i2", s, key_shape _ _ _ (by decide), by decide, by decide⟩
    rcases List.mem_append.mp hl with hl | hl
    · rcases optLine_shape _ _ l hl with ⟨s, _, rfl⟩
      exact ⟨gs "i3", s, key_shape _ _ _ (by decide), by decide, by decide⟩
    rcases List.mem_append.mp hl with hl | hl
    · rcases optLine_shape _ _ l hl with ⟨s, _, rfl⟩
      exact ⟨gs "i4", s, key_shape _ _ _ (by decide), by decide, by decide⟩
    rcases List.mem_append.mp hl with hl | hl
    · rcases optLine_shape _ _ l hl with ⟨s, _, rfl⟩
      exact ⟨gs "i5", s, key_shape _ _ _ (by decide), by decide, by decide⟩
    rcases List.mem_append.mp hl with hl | hl
    · rcases optLine_shape _ _ l hl with ⟨s, _, rfl⟩
      exact ⟨gs "j1", s, key_shape _ _ _ (by decide), by decide, by decide⟩
    rcases List.mem_append.mp hl with hl | hl
    · rcases optLine_shape _ _ l hl with ⟨s, _, rfl⟩
      exact ⟨gs "j2", s, key_shape _ _ _ (by decide), by decide, by decide⟩
    rcases List.mem_append.mp hl with hl | hl
    · rcases optLine_shape _ _ l hl with ⟨s, _, rfl⟩
      exact ⟨gs "j3", s, key_shape _ _ _ (by decide), by decide, by decide⟩
    · rcases optLine_intRepr_shape _ _ l hl with ⟨t, _, rfl⟩
      exact ⟨gs "itime", _, key_shape _ _ _ (by decide), by decide, by decide⟩

theorem peerLines_key_shape (p : PeerConfig) :
    ∀ l ∈ peerLines p, ∃ k payload,
      l = k ++ '=' :: payload ∧ '=' ∉ k ∧ k ∈ peerKeys := by
  intro l hl
  unfold peerLines at hl
  rcases List.mem_cons.mp hl with rfl | hl
  · exact ⟨gs "public_key", _, key_shape _ _ _ (by decide), by decide, by decide⟩
  rcases List.mem_cons.mp hl with rfl | hl
  · exact ⟨gs "persistent_keepalive_interval", _,
      key_shape _ _ _ (by decide), by decide, by decide⟩
  rcases List.mem_cons.mp hl with rfl | hl
  · exact ⟨gs "preshared_key", _, key_shape _ _ _ (by decide), by decide, by decide⟩
  rcases List.mem_append.mp hl with hl | hl
  · rcases optLine_shape _ _ l hl with ⟨s, _, rfl⟩
    exact ⟨gs "endpoint", s, key_shape _ _ _ (by decide), by decide, by decide⟩
  rcases List.mem_cons.mp hl with rfl | hl
  · exact ⟨gs "replace_allowed_ips", gs "true", by decide, by decide, by decide⟩
  · unfold allowedIpLines at hl
    split at hl
    · rcases List.mem_map.mp hl with ⟨ip, _, rfl⟩
      exact ⟨gs "allowed_ip", prefixStr ip,
        key_shape _ _ _ (by decide), by decide, by decide⟩
    · simp only [List.mem_cons, List.mem_singleton] at hl
      rcases hl with rfl | rfl | hl
      · exact ⟨gs "allowed_ip", gs "0.0.0.0/0", by decide, by decide, by decide⟩
      · exact ⟨gs "allowed_ip", gs "::/0", by decide, by decide, by decide⟩
      · simp at hl

/-- Every request line is `key=value` with one of the expected keys, the
listen_port / ASec / replace_peers keys occurring only when the
corresponding configuration piece is present. -/
theorem ipcRequestLines_key_shape (conf : DeviceConfig) (u : Bool) :
    ∀ l ∈ ipcRequestLines conf u, ∃ k payload,
      l = k ++ '=' :: payload ∧ '=' ∉ k ∧
      (k = gs "private_key"
       ∨ (k = gs "listen_port" ∧ conf.ListenPort.isSome = true)
       ∨ (k ∈ asecKeys ∧ conf.ASecConfig.isSome = true)
       ∨ (k = gs "replace_peers" ∧ u = true)
       ∨ k ∈ peerKeys) := by
  intro l hl
  unfold ipcRequestLines at hl
  rcases List.mem_cons.mp hl with rfl | hl
  · exact ⟨gs "private_key", _, key_shape _ _ _ (by decide), by decide,
      Or.inl rfl⟩
  rcases List.mem_append.mp hl with hl | hl
  · rcases optLine_intRepr_shape _ _ l hl with ⟨t, hport, rfl⟩
    exact ⟨gs "listen_port", _, key_shape _ _ _ (by decide), by decide,
      Or.inr (Or.inl ⟨rfl, by rw [hport]; rfl⟩)⟩
  rcases List.mem_append.mp hl with hl | hl
  · rcases hA : conf.ASecConfig with _ | a <;> rw [hA] at hl
    · simp at hl
    · rcases asecLines_key_shape a l hl with ⟨k, payload, rfl, hkfree, hkmem⟩
      exact ⟨k, payload, rfl, hkfree, Or.inr (Or.inr (Or.inl ⟨hkmem, rfl⟩))⟩
  rcases List.mem_append.mp hl with hl | hl
  · rcases u <;> simp only [if_true, if_false, Bool.false_eq_true] at hl
    · simp at hl
    · simp only [List.mem_singleton] at hl
      subst hl
      exact ⟨gs "replace_peers", gs "true", by decide, by decide,
        Or.inr (Or.inr (Or.inr (Or.inl ⟨rfl, rfl⟩)))⟩
  · rcases List.mem_flatMap.mp hl with ⟨p, _, hlp⟩
    rcases peerLines_key_shape p l hlp with ⟨k, payload, rfl, hkfree, hkmem⟩
    exact ⟨k, payload, rfl, hkfree, Or.inr (Or.inr (Or.inr (Or.inr hkmem)))⟩

/-- The request text of `CreateIPCRequest`, split on newlines, is the
load-path line list (plus the empty piece after the final newline). -/
theorem ipcRequest_split (conf : DeviceConfig) (u : Bool)
    (setting : DeviceSetting) (h : conf.uapiSafe = true)
    (hs : CreateIPCRequest conf u = .ok setting) :
    splitOnChar nlChar setting.IpcRequest = ipcRequestLines conf u ++ [[]] := by
  unfold CreateIPCRequest at hs
  injection hs with hs'
  rw [← hs']
  show splitOnChar nlChar (ipcRequestText conf u) = _
  rw [ipcRequestText_eq]
  unfold joinLines
  exact splitOnChar_joinLines nlChar _ (ipcRequestLines_nl_free conf u h)

/-- C1: for every configuration (whose string fields are newline-free, as
the parser guarantees), the UAPI request built by `CreateIPCRequest`
begins with the `private_key` line; contains a `listen_port`-keyed line
iff `ListenPort` is set; contains the contiguous ASec block (`jc`,
`jmin`, `jmax`, `s1`, `s2`, `h1..h4`, then the present ones of `i1..i5`,
`j1..j3`, `itime`, in that order), and an ASec-keyed line at all, iff
`ASecConfig` is set; and for each peer emits the block `public_key`,
`persistent_keepalive_interval`, `preshared_key`, optional `endpoint`,
then `replace_allowed_ips=true` followed by at least one `allowed_ip`
line. -/
theorem claim_C1_uapi_shape (conf : DeviceConfig) (isUpdate : Bool)
    (setting : DeviceSetting) (h : conf.uapiSafe = true)
    (hs : CreateIPCRequest conf isUpdate = .ok setting) :
    (splitOnChar nlChar setting.IpcRequest).headI
        = gs "private_key=" ++ conf.SecretKey
    ∧ ((∃ l ∈ splitOnChar nlChar setting.IpcRequest,
          lineKey l = gs "listen_port") ↔ conf.ListenPort.isSome = true)
    ∧ (∀ a, conf.ASecConfig = some a → ∃ pre post,
          splitOnChar nlChar setting.IpcRequest = pre ++ (asecLines a ++ post))
    ∧ ((∃ l ∈ splitOnChar nlChar setting.IpcRequest, lineKey l ∈ asecKeys)
          ↔ conf.ASecConfig.isSome = true)
    ∧ (∀ p ∈ conf.Peers, (∃ pre post,
          splitOnChar nlChar setting.IpcRequest =
            pre ++ (((gs "public_key=" ++ p.PublicKey) ::
              (gs "persistent_keepalive_interval=" ++ intRepr p.KeepAlive) ::
              (gs "preshared_key=" ++ p.PreSharedKey) ::
              (optLine p.Endpoint (gs "endpoint=") ++
                (gs "replace_allowed_ips=true") :: allowedIpLines p)) ++ post))
          ∧ allowedIpLines p ≠ []) := by
  have hsplit := ipcRequest_split conf isUpdate setting h hs
  refine ⟨?_, ⟨?_, ?_⟩, ?_, ⟨?_, ?_⟩, ?_⟩
  · rw [hsplit]
    rfl
  · rintro ⟨l, hl, hkey⟩
    rw [hsplit] at hl
    rcases List.mem_append.mp hl with hl | hl
    · rcases ipcRequestLines_key_shape conf isUpdate l hl with
        ⟨k, payload, rfl, hkfree, hcases⟩
      rw [lineKey_concat k payload hkfree] at hkey
      subst hkey
      rcases hcases with hc | ⟨_, hsome⟩ | ⟨hmem, _⟩ | ⟨hc, _⟩ | hmem
      · exact absurd hc (by decide)
      · exact hsome
      · exact absurd hmem (by decide)
      · exact absurd hc (by decide)
      · exact absurd hmem (by decide)
    · simp only [List.mem_singleton] at hl
      subst hl
      exact absurd hkey (by decide)
  · intro hsome
    rcases hp : conf.ListenPort with _ | port
    · rw [hp] at hsome; simp at hsome
    · refine ⟨gs "listen_port=" ++ intRepr port, ?_, ?_⟩
      · rw [hsplit]
        simp [ipcRequestLines, hp, optLine]
      · rw [key_shape _ (gs "listen_port") _ (by decide)]
        exact lineKey_concat _ _ (by decide)
  · intro a hA
    rw [hsplit]
    unfold ipcRequestLines
    rw [hA]
    exact ⟨(gs "private_key=" ++ conf.SecretKey) ::
      optLine (conf.ListenPort.map intRepr) (gs "listen_port="),
      ((if isUpdate then [gs "replace_peers=true"] else []) ++
        conf.Peers.flatMap peerLines) ++ [[]], by simp [List.append_assoc]⟩
  · rintro ⟨l, hl, hkey⟩
    rw [hsplit] at hl
    rcases List.mem_append.mp hl with hl | hl
    · rcases ipcRequestLines_key_shape conf isUpdate l hl with
        ⟨k, payload, rfl, hkfree, hcases⟩
      rw [lineKey_concat k payload hkfree] at hkey
      rcases hcases with hc | ⟨hc, _⟩ | ⟨_, hsome⟩ | ⟨hc, _⟩ | hmem
      · subst hc; exact absurd hkey (by decide)
      · subst hc; exact absurd hkey (by decide)
      · exact hsome
      · subst hc; exact absurd hkey (by decide)
      · simp only [peerKeys, List.mem_cons, List.not_mem_nil, or_false,
          List.mem_singleton] at hmem
        rcases hmem with rfl | rfl | rfl | rfl | rfl | rfl <;>
          exact absurd hkey (by decide)
    · simp only [List.mem_singleton] at hl
      subst hl
      exact absurd hkey (by decide)
  · intro hsome
    rcases hA : conf.ASecConfig with _ | a
    · rw [hA] at hsome; simp at hsome
    · refine ⟨gs "jc=" ++ intRepr a.junkPacketCount, ?_, ?_⟩
      · rw [hsplit]
        simp [ipcRequestLines, hA, asecLines]
      · rw [key_shape _ (gs "jc") _ (by decide)]
        rw [lineKey_concat _ _ (by decide)]
        decide
  · intro p hp
    constructor
    · obtain ⟨l1, l2, hpeers⟩ := List.append_of_mem hp
      have hflat : conf.Peers.flatMap peerLines =
          l1.flatMap peerLines ++ (peerLines p ++ l2.flatMap peerLines) := by
        rw [hpeers]
        simp
      rw [hsplit]
      unfold ipcRequestLines
      rw [hflat]
      exact ⟨(gs "private_key=" ++ conf.SecretKey) ::
        (optLine (conf.ListenPort.map intRepr) (gs "listen_port=") ++
          ((match conf.ASecConfig with
            | some a => asecLines a
            | none => []) ++
           ((if isUpdate then [gs "replace_peers=true"] else []) ++
            l1.flatMap peerLines))),
        l2.flatMap peerLines ++ [[]], by simp [peerLines, List.append_assoc]⟩
    · unfold allowedIpLines
      split
      · rename_i hlen
        intro hmap
        rw [List.map_eq_nil_iff] at hmap
        rw [hmap] at hlen
        simp at hlen
      · simp

instance : Inhabited DeviceSetting := ⟨⟨[], [], [], 0⟩⟩

/-- The configuration of the C1 witness. -/
def confC1 : DeviceConfig :=
  { SecretKey := gs "aa12", ListenPort := some 51820,
    Peers := [{ PublicKey := gs "cc34", PreSharedKey := gs "0000",
                Endpoint := some (gs "10.0.0.1:51820"), KeepAlive := 25,
                AllowedIPs := [⟨IpAddr.v4 0 0 0 0, 0⟩] }] }

set_option maxRecDepth 10000 in
/-- C1 witness: the concrete request of `confC1` begins with its
`private_key` line. -/
theorem claim_C1_uapi_shape_witness :
    (splitOnChar nlChar
        ((CreateIPCRequest confC1 true).toOption.get!).IpcRequest).headI
      = gs "private_key=" ++ confC1.SecretKey :=
  (claim_C1_uapi_shape confC1 true
    ((CreateIPCRequest confC1 true).toOption.get!) (by decide) (by decide)).1

/-- C5: for every peer of a (newline-free) configuration, the request
contains that peer's `allowed_ip` line block; a peer with empty
`AllowedIPs` gets exactly the two fallback lines `allowed_ip=0.0.0.0/0`
and `allowed_ip=::/0`, and a peer with non-empty `AllowedIPs` gets
exactly one `allowed_ip` line per prefix, in order, with no fallback
lines. -/
theorem claim_C5_allowed_ip_lines (conf : DeviceConfig) (isUpdate : Bool)
    (setting : DeviceSetting) (h : conf.uapiSafe = true)
    (hs : CreateIPCRequest conf isUpdate = .ok setting) :
    ∀ p ∈ conf.Peers,
      (∃ pre post, splitOnChar nlChar setting.IpcRequest =
          pre ++ (allowedIpLines p ++ post))
      ∧ (p.AllowedIPs = [] →
          allowedIpLines p =
            [gs "allowed_ip=0.0.0.0/0", gs "allowed_ip=::/0"])
      ∧ (p.AllowedIPs ≠ [] →
          allowedIpLines p =
            p.AllowedIPs.map (fun ip => gs "allowed_ip=" ++ prefixStr ip)) := by
  have hsplit := ipcRequest_split conf isUpdate setting h hs
  intro p hp
  refine ⟨?_, ?_, ?_⟩
  · obtain ⟨l1, l2, hpeers⟩ := List.append_of_mem hp
    have hflat : conf.Peers.flatMap peerLines =
        l1.flatMap peerLines ++ (peerLines p ++ l2.flatMap peerLines) := by
      rw [hpeers]
      simp
    rw [hsplit]
    unfold ipcRequestLines
    rw [hflat]
    exact ⟨(gs "private_key=" ++ conf.SecretKey) ::
      (optLine (conf.ListenPort.map intRepr) (gs "listen_port=") ++
        ((match conf.ASecConfig with
          | some a => asecLines a
          | none => []) ++
         ((if isUpdate then [gs "replace_peers=true"] else []) ++
          (l1.flatMap peerLines ++
            ((gs "public_key=" ++ p.PublicKey) ::
             (gs "persistent_keepalive_interval=" ++ intRepr p.KeepAlive) ::
             (gs "preshared_key=" ++ p.PreSharedKey) ::
             (optLine p.Endpoint (gs "endpoint=") ++
               [gs "replace_allowed_ips=true"])))))),
      l2.flatMap peerLines ++ [[]],
      by simp [peerLines, List.append_assoc]⟩
  · intro hnil
    unfold allowedIpLines
    rw [hnil]
    simp
  · intro hne
    unfold allowedIpLines
    rw [if_pos (List.length_pos.mpr hne)]

/-- The peer of the C5 witness: empty `AllowedIPs`. -/
def peerC5 : PeerConfig :=
  { PublicKey := gs "cc34", PreSharedKey := gs "0000", AllowedIPs := [] }

/-- The configuration of the C5 witness. -/
def confC5 : DeviceConfig :=
  { SecretKey := gs "aa12", Peers := [peerC5] }

set_option maxRecDepth 10000 in
/-- C5 witness: the empty-`AllowedIPs` peer of `confC5` gets exactly the
two fallback lines. -/
theorem claim_C5_allowed_ip_lines_witness :
    allowedIpLines peerC5
      = [gs "allowed_ip=0.0.0.0/0", gs "allowed_ip=::/0"] :=
  ((claim_C5_allowed_ip_lines confC5 false
      ((CreateIPCRequest confC5 false).toOption.get!) (by decide) (by decide))
    peerC5 (by decide)).2.1 (by decide)
